import Mathlib

/-!
Verification of the AICore orchestration runtime against its specification.

The Python sources are modelled by a shallow embedding:

* JSON-like dynamic values (the dictionaries passed around by the code) are
  the inductive type `JVal`.  Numbers are modelled as integers; none of the
  verified properties depends on non-integral numerics.
* Python exceptions are the type `PyExc` (a type name plus a message);
  code that can raise is translated into the `Except PyExc` monad, and
  top-level `try/except` blocks catch into structured error dictionaries,
  exactly as the source does.
* Ambient effects (wall clock, DNS resolution, the network fetch, byte
  decoding, JSON parsing of raw request bytes) are passed as explicit
  parameters, so every operation is a pure function of its inputs.
-/

set_option maxRecDepth 10000
set_option maxHeartbeats 1000000

namespace AICore

/-- A Python exception value: the exception type name and its message. -/
structure PyExc where
  ty : String
  msg : String
deriving DecidableEq, Repr

/-- Dynamic JSON-like values: the dictionaries, lists, strings, numbers,
booleans and `None` that the Python code passes around. -/
inductive JVal where
  | jnull : JVal
  | jbool : Bool → JVal
  | jnum : Int → JVal
  | jstr : String → JVal
  | jarr : List JVal → JVal
  | jobj : List (String × JVal) → JVal
deriving Inhabited

namespace JVal

mutual

/-- Structural equality of dynamic values (Python `==` on JSON data). -/
def beq : JVal → JVal → Bool
  | jnull, jnull => true
  | jbool a, jbool b => a == b
  | jnum a, jnum b => a == b
  | jstr a, jstr b => a == b
  | jarr xs, jarr ys => beqList xs ys
  | jobj xs, jobj ys => beqObj xs ys
  | _, _ => false

/-- Elementwise equality of value lists. -/
def beqList : List JVal → List JVal → Bool
  | [], [] => true
  | x :: xs, y :: ys => beq x y && beqList xs ys
  | _, _ => false

/-- Elementwise equality of key-value lists. -/
def beqObj : List (String × JVal) → List (String × JVal) → Bool
  | [], [] => true
  | (k, v) :: xs, (l, w) :: ys => k == l && beq v w && beqObj xs ys
  | _, _ => false

end

mutual

theorem eq_of_beq : (a b : JVal) → beq a b = true → a = b
  | jnull, jnull, _ => rfl
  | jbool a, jbool b, h => by
      simp only [beq] at h; exact congrArg jbool (by simpa using h)
  | jnum a, jnum b, h => by
      simp only [beq] at h; exact congrArg jnum (by simpa using h)
  | jstr a, jstr b, h => by
      simp only [beq] at h; exact congrArg jstr (by simpa using h)
  | jarr xs, jarr ys, h => by
      simp only [beq] at h
      exact congrArg jarr (eqList_of_beqList xs ys h)
  | jobj xs, jobj ys, h => by
      simp only [beq] at h
      exact congrArg jobj (eqObj_of_beqObj xs ys h)

theorem eqList_of_beqList : (xs ys : List JVal) → beqList xs ys = true → xs = ys
  | [], [], _ => rfl
  | x :: xs, y :: ys, h => by
      simp only [beqList, Bool.and_eq_true] at h
      rw [eq_of_beq x y h.1, eqList_of_beqList xs ys h.2]

theorem eqObj_of_beqObj : (xs ys : List (String × JVal)) →
    beqObj xs ys = true → xs = ys
  | [], [], _ => rfl
  | (k, v) :: xs, (l, w) :: ys, h => by
      simp only [beqObj, Bool.and_eq_true] at h
      obtain ⟨⟨h1, h2⟩, h3⟩ := h
      have hk : k = l := by simpa using h1
      rw [hk, eq_of_beq v w h2, eqObj_of_beqObj xs ys h3]

end

mutual

theorem beq_refl : (a : JVal) → beq a a = true
  | jnull => rfl
  | jbool a => by simp [beq]
  | jnum a => by simp [beq]
  | jstr a => by simp [beq]
  | jarr xs => by simp only [beq]; exact beqList_refl xs
  | jobj xs => by simp only [beq]; exact beqObj_refl xs

theorem beqList_refl : (xs : List JVal) → beqList xs xs = true
  | [] => rfl
  | x :: xs => by
      simp only [beqList, Bool.and_eq_true]
      exact ⟨beq_refl x, beqList_refl xs⟩

theorem beqObj_refl : (xs : List (String × JVal)) → beqObj xs xs = true
  | [] => rfl
  | (k, v) :: xs => by
      simp only [beqObj, Bool.and_eq_true]
      exact ⟨⟨by simp, beq_refl v⟩, beqObj_refl xs⟩

end

instance : DecidableEq JVal := fun a b =>
  if h : beq a b = true then
    isTrue (eq_of_beq a b h)
  else
    isFalse (fun e => h (e ▸ beq_refl a))

instance : BEq JVal := ⟨beq⟩

instance : LawfulBEq JVal where
  eq_of_beq := eq_of_beq _ _
  rfl := beq_refl _

/-- Python truthiness: `None`, `False`, `0`, `""`, `[]` and `{}` are falsy. -/
def truthy : JVal → Bool
  | jnull => false
  | jbool b => b
  | jnum n => n != 0
  | jstr s => s != ""
  | jarr xs => !xs.isEmpty
  | jobj kvs => !kvs.isEmpty

/-- Is the value a dictionary? (`isinstance(x, dict)`). -/
def isObj : JVal → Bool
  | jobj _ => true
  | _ => false

/-- Is the value a list? (`isinstance(x, list)`). -/
def isArr : JVal → Bool
  | jarr _ => true
  | _ => false

/-- Is the value a string? (`isinstance(x, str)`). -/
def isStr : JVal → Bool
  | jstr _ => true
  | _ => false

/-- Total observer used in theorem statements: field of a dictionary,
`jnull` when absent or when the value is not a dictionary. -/
def look : JVal → String → JVal
  | jobj kvs, k => (kvs.lookup k).getD jnull
  | _, _ => jnull

/-- Python `d.get(k)` (default `None`); raises `AttributeError` when the
receiver is not a dictionary, as the interpreter would. -/
def pyGet : JVal → String → Except PyExc JVal
  | jobj kvs, k => .ok ((kvs.lookup k).getD jnull)
  | _, _ => .error ⟨"AttributeError", "get"⟩

/-- Python `d.get(k, default)`; raises on non-dictionaries. -/
def pyGetD : JVal → String → JVal → Except PyExc JVal
  | jobj kvs, k, dflt => .ok ((kvs.lookup k).getD dflt)
  | _, _, _ => .error ⟨"AttributeError", "get"⟩

/-- Python `k in d` for dictionaries; raises on non-dictionaries. -/
def hasKey : JVal → String → Except PyExc Bool
  | jobj kvs, k => .ok ((kvs.lookup k).isSome)
  | _, _ => .error ⟨"TypeError", "argument of type is not iterable"⟩

/-- Dictionary assignment `d[k] = v`: replaces the value at an existing
key (keeping its position) or appends a new binding, as CPython does. -/
def setKey : List (String × JVal) → String → JVal → List (String × JVal)
  | [], k, v => [(k, v)]
  | (k', v') :: rest, k, v =>
    if k' = k then (k, v) :: rest else (k', v') :: setKey rest k v

/-- Is the value hashable (usable as a member of a Python `set`)? -/
def hashable : JVal → Bool
  | jarr _ => false
  | jobj _ => false
  | _ => true

end JVal

open JVal

/-! ### Python string primitives -/

/-- The characters stripped by Python `str.strip()` (ASCII whitespace set;
the verified properties never feed non-ASCII whitespace to `strip`). -/
def pyWs (c : Char) : Bool :=
  c = ' ' || c = '\t' || c = '\n' || c = '\r' || c = Char.ofNat 11 || c = Char.ofNat 12

/-- Python `str.strip()`. -/
def pyStrip (s : String) : String :=
  ⟨(s.data.dropWhile pyWs).reverse.dropWhile pyWs |>.reverse⟩

/-- Python slice `s[:n]` for `n ≥ 0`. -/
def pyTake (s : String) (n : Nat) : String := ⟨s.data.take n⟩

/-- Python slice `s[-n:]` for `n ≥ 1`. -/
def pyTail (s : String) (n : Nat) : String := ⟨s.data.drop (s.data.length - n)⟩

/-- Python `str.lower()` (ASCII case folding; the verified properties
never case-fold non-ASCII letters). -/
def pyLower (s : String) : String := ⟨s.data.map Char.toLower⟩

/-- Python `s.startswith(p)`. -/
def pyStartsWith (s p : String) : Bool := s.data.take p.data.length = p.data

/-- Python `s.endswith(p)`. -/
def pyEndsWith (s p : String) : Bool :=
  p.data.length ≤ s.data.length ∧
    s.data.drop (s.data.length - p.data.length) = p.data

/-- Python `s[n:]` for `n ≥ 0`. -/
def pyDrop (s : String) (n : Nat) : String := ⟨s.data.drop n⟩

/-- Python `sep.join(parts)`. -/
def pyJoin (sep : String) : List String → String
  | [] => ""
  | [p] => p
  | p :: rest => p ++ sep ++ pyJoin sep rest

/-- The single-quote character, kept out of string literals. -/
def squote : String := (Char.ofNat 39).toString

/-- Python `str.split(sep)` for a one-character separator, on char lists. -/
def splitChar (sep : Char) : List Char → List (List Char)
  | [] => [[]]
  | c :: cs =>
    let rest := splitChar sep cs
    if c = sep then [] :: rest
    else
      match rest with
      | [] => [[c]]
      | p :: ps => (c :: p) :: ps

/-- Python `str.split(sep)` for a one-character separator. -/
def pySplit (s : String) (sep : Char) : List String :=
  (splitChar sep s.data).map (fun cs => ⟨cs⟩)

/-- Digits of a decimal string, if it is all digits and nonempty. -/
def decDigits? (cs : List Char) : Option Nat :=
  if cs.isEmpty then none
  else if cs.all Char.isDigit then
    some (cs.foldl (fun acc c => acc * 10 + (c.toNat - 48)) 0)
  else none

/-- Python `int(s)` on a string: optional surrounding whitespace, optional
sign, decimal digits.  Exotic accepted forms (underscore separators) are not
modelled; no verified property feeds them. -/
def pyIntOfStr (s : String) : Except PyExc Int :=
  let cs := (pyStrip s).data
  match cs with
  | '-' :: rest =>
    match decDigits? rest with
    | some n => .ok (-(n : Int))
    | none => .error ⟨"ValueError", "invalid literal for int"⟩
  | '+' :: rest =>
    match decDigits? rest with
    | some n => .ok (n : Int)
    | none => .error ⟨"ValueError", "invalid literal for int"⟩
  | _ =>
    match decDigits? cs with
    | some n => .ok (n : Int)
    | none => .error ⟨"ValueError", "invalid literal for int"⟩

/-- Python `float(x)` coerced to the integral number model: accepts numbers
and booleans; parses simple decimal strings (the fractional part is dropped
in this integral model — no verified property reads a converted float);
raises on other values, as `float()` does. -/
def pyFloat : JVal → Except PyExc Int
  | jnum n => .ok n
  | jbool b => .ok (if b then 1 else 0)
  | jstr s =>
    let cs := (pyStrip s).data
    let core := fun (cs : List Char) =>
      match splitChar '.' cs with
      | [w] => decDigits? w
      | [w, f] =>
        if f.all Char.isDigit then decDigits? (if w.isEmpty then ['0'] else w)
        else none
      | _ => none
    match cs with
    | '-' :: rest =>
      match core rest with
      | some n => .ok (-(n : Int))
      | none => .error ⟨"ValueError", "could not convert string to float"⟩
    | _ =>
      match core cs with
      | some n => .ok (n : Int)
      | none => .error ⟨"ValueError", "could not convert string to float"⟩
  | _ => .error ⟨"TypeError", "float argument"⟩

/-- Comma-space separated concatenation. -/
def commaSep (parts : List String) : String :=
  String.intercalate ", " parts

mutual

/-- Python `str(x)`. -/
def pyStr : JVal → String
  | jnull => "None"
  | jbool b => if b then "True" else "False"
  | jnum n => toString n
  | jstr s => s
  | jarr xs => "[" ++ commaSep (reprList xs) ++ "]"
  | jobj kvs => "\x7b" ++ commaSep (reprObj kvs) ++ "\x7d"

/-- Python `repr(x)`: like `str` but strings are quoted.  Escaping of
control characters inside `repr` is not modelled; no verified property
reads a rendered container. -/
def pyRepr : JVal → String
  | jnull => "None"
  | jbool b => if b then "True" else "False"
  | jnum n => toString n
  | jstr s => squote ++ s ++ squote
  | jarr xs => "[" ++ commaSep (reprList xs) ++ "]"
  | jobj kvs => "\x7b" ++ commaSep (reprObj kvs) ++ "\x7d"

/-- Renders list elements with `repr`. -/
def reprList : List JVal → List String
  | [] => []
  | x :: xs => pyRepr x :: reprList xs

/-- Renders dictionary entries with `repr`. -/
def reprObj : List (String × JVal) → List String
  | [] => []
  | (k, v) :: kvs => (squote ++ k ++ squote ++ ": " ++ pyRepr v) :: reprObj kvs

end

/-- JSON string escaping as `json.dumps` performs it (backslash, quote and
the common control characters; other control characters are not modelled —
no verified property reads an escaped string). -/
def jsonEscape (s : String) : String :=
  s.data.foldl
    (fun acc c =>
      acc ++
        (if c = '\\' then "\\\\"
         else if c = '"' then "\\\""
         else if c = '\n' then "\\n"
         else if c = '\t' then "\\t"
         else if c = '\r' then "\\r"
         else c.toString))
    ""

mutual

/-- `json.dumps(x, ensure_ascii=False)` with the default separators. -/
def jsonDumps : JVal → String
  | jnull => "null"
  | jbool b => if b then "true" else "false"
  | jnum n => toString n
  | jstr s => "\"" ++ jsonEscape s ++ "\""
  | jarr xs => "[" ++ commaSep (dumpList xs) ++ "]"
  | jobj kvs => "\x7b" ++ commaSep (dumpObj kvs) ++ "\x7d"

/-- Serializes list elements. -/
def dumpList : List JVal → List String
  | [] => []
  | x :: xs => jsonDumps x :: dumpList xs

/-- Serializes dictionary entries. -/
def dumpObj : List (String × JVal) → List String
  | [] => []
  | (k, v) :: kvs => ("\"" ++ jsonEscape k ++ "\": " ++ jsonDumps v) :: dumpObj kvs

end

/-! ### UTF-8 and SHA-256 (`hashlib.sha256(...).hexdigest()`) -/

/-- UTF-8 encoding of one code point. -/
def utf8Char (c : Char) : List Nat :=
  let n := c.toNat
  if n < 128 then [n]
  else if n < 2048 then [192 + n / 64, 128 + n % 64]
  else if n < 65536 then [224 + n / 4096, 128 + (n / 64) % 64, 128 + n % 64]
  else [240 + n / 262144, 128 + (n / 4096) % 64, 128 + (n / 64) % 64, 128 + n % 64]

/-- UTF-8 encoding of a string as a byte list. -/
def utf8 (s : String) : List Nat :=
  (s.data.map utf8Char).flatten

/-- Reduction to a 32-bit word. -/
def w32 (n : Nat) : Nat := n % 4294967296

/-- 32-bit right rotation. -/
def rotr (n x : Nat) : Nat := w32 ((x >>> n) ||| (x <<< (32 - n)))

/-- SHA-256 round constants. -/
def shaK : List Nat :=
  [1116352408, 1899447441, 3049323471, 3921009573, 961987163, 1508970993,
   2453635748, 2870763221, 3624381080, 310598401, 607225278, 1426881987,
   1925078388, 2162078206, 2614888103, 3248222580, 3835390401, 4022224774,
   264347078, 604807628, 770255983, 1249150122, 1555081692, 1996064986,
   2554220882, 2821834349, 2952996808, 3210313671, 3336571891, 3584528711,
   113926993, 338241895, 666307205, 773529912, 1294757372, 1396182291,
   1695183700, 1986661051, 2177026350, 2456956037, 2730485921, 2820302411,
   3259730800, 3345764771, 3516065817, 3600352804, 4094571909, 275423344,
   430227734, 506948616, 659060556, 883997877, 958139571, 1322822218,
   1537002063, 1747873779, 1955562222, 2024104815, 2227730452, 2361852424,
   2428436474, 2756734187, 3204031479, 3329325298]

/-- SHA-256 padding of a byte message. -/
def shaPad (msg : List Nat) : List Nat :=
  let len := msg.length
  let zeros := (64 + 56 - ((len + 1) % 64)) % 64
  msg ++ [128] ++ List.replicate zeros 0 ++
    (List.range 8).map (fun i => ((len * 8) >>> (8 * (7 - i))) % 256)

/-- Splits a byte list into 64-byte blocks (fuel-based structural
recursion, so the kernel can evaluate it). -/
def blocks64Aux : Nat → List Nat → List (List Nat)
  | 0, _ => []
  | _, [] => []
  | fuel + 1, l => l.take 64 :: blocks64Aux fuel (l.drop 64)

/-- Splits a byte list into 64-byte blocks. -/
def blocks64 (l : List Nat) : List (List Nat) :=
  blocks64Aux l.length l

/-- Packs 4-byte groups into big-endian 32-bit words. -/
def words32 : List Nat → List Nat
  | b0 :: b1 :: b2 :: b3 :: rest =>
    (b0 * 16777216 + b1 * 65536 + b2 * 256 + b3) :: words32 rest
  | _ => []

/-- Message-schedule extension of a 16-word block to 64 words. -/
def shaSchedule (ws : List Nat) : Array Nat :=
  (List.range 48).foldl
    (fun acc t =>
      let i := t + 16
      let x15 := acc.getD (i - 15) 0
      let x2 := acc.getD (i - 2) 0
      let s0 := (rotr 7 x15) ^^^ (rotr 18 x15) ^^^ (x15 >>> 3)
      let s1 := (rotr 17 x2) ^^^ (rotr 19 x2) ^^^ (x2 >>> 10)
      acc.push (w32 (acc.getD (i - 16) 0 + s0 + acc.getD (i - 7) 0 + s1)))
    ws.toArray

/-- SHA-256 compression of one block into the running hash state. -/
def shaBlock (hs : List Nat) (block : List Nat) : List Nat :=
  let w := shaSchedule (words32 block)
  let step := fun (st : Nat × Nat × Nat × Nat × Nat × Nat × Nat × Nat) (t : Nat) =>
    let (a, b, c, d, e, f, g, h) := st
    let s1 := (rotr 6 e) ^^^ (rotr 11 e) ^^^ (rotr 25 e)
    let ch := (e &&& f) ^^^ ((4294967295 - e) &&& g)
    let t1 := w32 (h + s1 + ch + shaK.getD t 0 + w.getD t 0)
    let s0 := (rotr 2 a) ^^^ (rotr 13 a) ^^^ (rotr 22 a)
    let mj := (a &&& b) ^^^ (a &&& c) ^^^ (b &&& c)
    let t2 := w32 (s0 + mj)
    (w32 (t1 + t2), a, b, c, w32 (d + t1), e, f, g)
  match hs with
  | [h0, h1, h2, h3, h4, h5, h6, h7] =>
    let (a, b, c, d, e, f, g, h) :=
      (List.range 64).foldl step (h0, h1, h2, h3, h4, h5, h6, h7)
    [w32 (h0 + a), w32 (h1 + b), w32 (h2 + c), w32 (h3 + d),
     w32 (h4 + e), w32 (h5 + f), w32 (h6 + g), w32 (h7 + h)]
  | _ => hs

/-- SHA-256 digest of a byte message, as a list of eight 32-bit words. -/
def sha256Words (msg : List Nat) : List Nat :=
  (blocks64 (shaPad msg)).foldl shaBlock
    [1779033703, 3144134277, 1013904242, 2773480762,
     1359893119, 2600822924, 528734635, 1541459225]

/-- One lowercase hexadecimal digit. -/
def hexDigit (n : Nat) : Char :=
  if n < 10 then Char.ofNat (48 + n) else Char.ofNat (87 + n)

/-- Lowercase hexadecimal rendering of a 32-bit word. -/
def hex32 (n : Nat) : List Char :=
  (List.range 8).map (fun i => hexDigit ((n >>> (4 * (7 - i))) % 16))

/-- `hashlib.sha256(s.encode("utf-8")).hexdigest()`. -/
def sha256hex (s : String) : String :=
  ⟨((sha256Words (utf8 s)).map hex32).flatten⟩

/-! ### `core/tools/tool_canonicalization.py` -/

/-- `canonicalize(name, method, args)` from
`core/tools/tool_canonicalization.py`, line for line. -/
def canonicalize (name method args : JVal) : String × String × JVal :=
  let n := match name with | jstr s => pyStrip s | _ => ""
  let m := match method with | jstr s => pyStrip s | _ => ""
  let a := if args.isObj then args else jobj []
  let m2 :=
    if n = "browser" then
      if m = "fetch" ∨ m = "get" ∨ m = "get_url" ∨ m = "download" ∨ m = "httpget" then
        "http_get"
      else m
    else if n = "terminal" then
      if m = "exec" ∨ m = "run" ∨ m = "cmd" then "run_cmd" else m
    else if n = "file" then
      if m = "read" then "read_text"
      else if m = "write" then "write_text"
      else if m = "ls" ∨ m = "dir" then "list_dir"
      else if m = "mkdir" then "mkdirs"
      else m
    else m
  (n, m2, a)

/-- `MasterAgent._canonicalize_tool_call` from
`core/kernel/master_agent.py` (the orchestrator keeps its own copy of the
alias table), line for line. -/
def masterAgentCanonicalizeToolCall (name method args : JVal) :
    String × String × JVal :=
  let n := match name with | jstr s => pyStrip s | _ => ""
  let m := match method with | jstr s => pyStrip s | _ => ""
  let a := if args.isObj then args else jobj []
  let m2 :=
    if n = "browser" then
      if m = "fetch" ∨ m = "get" ∨ m = "get_url" ∨ m = "download" ∨ m = "httpget" then
        "http_get"
      else m
    else if n = "terminal" then
      if m = "exec" ∨ m = "run" ∨ m = "cmd" then "run_cmd" else m
    else if n = "file" then
      if m = "read" then "read_text"
      else if m = "write" then "write_text"
      else if m = "ls" ∨ m = "dir" then "list_dir"
      else if m = "mkdir" then "mkdirs"
      else m
    else m
  (n, m2, a)

/-- The alias table as the specification states it (spec section 4.6):
the canonical method for a `(name, method)` pair, every other pair left
unchanged. -/
def specCanonicalMethod (n m : String) : String :=
  if n = "browser" then
    if m = "fetch" ∨ m = "get" ∨ m = "get_url" ∨ m = "download" ∨ m = "httpget" then
      "http_get"
    else m
  else if n = "terminal" then
    if m = "exec" ∨ m = "run" ∨ m = "cmd" then "run_cmd" else m
  else if n = "file" then
    if m = "read" then "read_text"
    else if m = "write" then "write_text"
    else if m = "ls" ∨ m = "dir" then "list_dir"
    else if m = "mkdir" then "mkdirs"
    else m
  else m

/-! ### `core/tools/tool_router.py` -/

/-- The provider registry names, in the registration order of
`ToolRouter.__init__`. -/
def toolRegistryNames : List String :=
  ["browser", "file", "terminal", "audio", "video", "echo", "ping"]

/-- Stable insertion into an ascending list. -/
def insertSorted (s : String) : List String → List String
  | [] => [s]
  | x :: xs => if s ≤ x then s :: x :: xs else x :: insertSorted s xs

/-- Python `sorted` on strings. -/
def sortStrings (l : List String) : List String :=
  l.foldr insertSorted []

/-- `ToolRouter.available_tools`: the sorted registry names. -/
def availableTools : List String :=
  sortStrings toolRegistryNames

/-- The behavior of the registered capability providers: `run name method
args` either returns a value or raises.  The router is verified for every
possible provider behavior. -/
structure ToolProviders where
  run : String → String → JVal → Except PyExc JVal

/-- One iteration of the dispatch loop in `ToolRouter.execute`. -/
def execOne (providers : ToolProviders) (call : JVal) : Except PyExc JVal := do
  let name ← call.pyGet "name"
  let method ← call.pyGet "method"
  let args ← call.pyGet "args"
  if ¬(name.isStr ∧ name.truthy ∧ method.isStr ∧ method.truthy ∧ args.isObj) then
    pure (jobj [("ok", jbool false), ("name", jstr (pyStr name)),
      ("method", jstr (pyStr method)), ("result", jnull),
      ("error", jstr "INVALID_TOOL_CALL"),
      ("details", jobj [("call", call)])])
  else
    let n := pyStr name
    let m := pyStr method
    if n ∉ toolRegistryNames then
      pure (jobj [("ok", jbool false), ("name", jstr n), ("method", jstr m),
        ("result", jnull), ("error", jstr "UNKNOWN_TOOL"),
        ("details", jobj [("available", jarr (availableTools.map jstr))])])
    else
      match providers.run n m args with
      | .ok v =>
        pure (jobj [("ok", jbool true), ("name", jstr n), ("method", jstr m),
          ("result", v), ("error", jnull), ("details", jnull)])
      | .error e =>
        pure (jobj [("ok", jbool false), ("name", jstr n), ("method", jstr m),
          ("result", jnull), ("error", jstr "TOOL_EXCEPTION"),
          ("details", jobj [("type", jstr e.ty), ("message", jstr e.msg)])])

/-- `ToolRouter.execute`: the dispatch loop.  A raised exception outside
the per-call `try` (only possible when a call is not a dictionary)
propagates, exactly as in the source. -/
def routerExecute (providers : ToolProviders) :
    List JVal → Except PyExc (List JVal)
  | [] => .ok []
  | call :: rest => do
    let r ← execOne providers call
    let rs ← routerExecute providers rest
    pure (r :: rs)

/-! ### `core/kernel/planner.py` -/

/-- `type(x).__name__` on the dynamic value model. -/
def pyTypeName : JVal → String
  | jnull => "NoneType"
  | jbool _ => "bool"
  | jnum _ => "int"
  | jstr _ => "str"
  | jarr _ => "list"
  | jobj _ => "dict"

/-- Dictionary field with an explicit default (`d.get(k, dflt)` on a value
known to be a dictionary). -/
def JVal.lookD (v : JVal) (k : String) (dflt : JVal) : JVal :=
  match v with
  | jobj kvs => (kvs.lookup k).getD dflt
  | _ => dflt

/-- Python iteration (`for x in v`).  Lists yield their elements, strings
their characters, dictionaries their keys; other values raise. -/
def pyIter : JVal → Except PyExc (List JVal)
  | jarr xs => .ok xs
  | jstr s => .ok (s.data.map (fun c => jstr c.toString))
  | jobj kvs => .ok (kvs.map (fun kv => jstr kv.1))
  | _ => .error ⟨"TypeError", "object is not iterable"⟩

/-- Python set membership `x in s`; unhashable values raise. -/
def setMem (s : List JVal) (x : JVal) : Except PyExc Bool :=
  if x.hashable then .ok (s.contains x) else .error ⟨"TypeError", "unhashable type"⟩

/-- `_sha_id(s)`: the first 16 hex digits of the SHA-256 of `s`. -/
def shaId (s : String) : String :=
  pyTake (sha256hex s) 16

/-- `Planner.new_plan(goal)`.  The wall clock is the explicit `now`
argument (rendered as an integer; no verified property reads a default
timestamp hash). -/
def newPlan (goal : JVal) (now : Int) : JVal :=
  if ¬(goal.isStr ∧ pyStrip (pyStr goal) ≠ "") then
    jobj [("ok", jbool false), ("error", jstr "INVALID_GOAL"), ("details", jnull)]
  else
    let g := pyStrip (pyStr goal)
    let pid := shaId (g ++ "|" ++ toString now)
    jobj [("ok", jbool true),
      ("plan", jobj [("plan_id", jstr pid), ("goal", jstr g),
        ("created_ts", jnum now), ("status", jstr "new"),
        ("steps", jarr []), ("checkpoints", jarr [])]),
      ("error", jnull), ("details", jnull)]

/-- `Planner._normalize_tool(tool_obj)`. -/
def normalizeTool (toolObj : JVal) : JVal :=
  let t := if toolObj.isObj then toolObj else jobj []
  let name := t.look "name"
  let method := t.look "method"
  let args := t.look "args"
  let nameS := match name with | jstr s => pyStrip s | _ => ""
  let methodS := match method with | jstr s => pyStrip s | _ => ""
  let argsD := if args.isObj then args else jobj []
  jobj [("name", jstr nameS), ("method", jstr methodS), ("args", argsD)]

/-- The slice `s.get("title", "")[:50]` used while deriving a missing step
id: strings and lists are subscriptable, everything else raises. -/
def titleSlice (titleV : JVal) : Except PyExc String :=
  match titleV with
  | jstr t => .ok (pyTake t 50)
  | jarr xs => .ok (pyStr (jarr (xs.take 50)))
  | _ => .error ⟨"TypeError", "object is not subscriptable"⟩

/-- The `depends_on` coercion of `_normalize_full_plan`: falsy values and
non-lists become the empty list, entries that are not strings, numbers or
booleans are dropped, the rest are stringified. -/
def normDeps (dV : JVal) : List JVal :=
  let deps := if dV.truthy then dV else jarr []
  let depsL := match deps with | jarr xs => xs | _ => []
  (depsL.filter (fun d => match d with
    | jstr _ => true | jnum _ => true | jbool _ => true | _ => false)).map
    (fun d => jstr (pyStr d))

/-- The per-step body of the normalization loop in
`Planner._normalize_full_plan`: index, already-seen ids, remaining raw
steps; non-dictionary entries are skipped. -/
def normFullSteps (planId : String) :
    Nat → List String → List JVal → Except PyExc (List JVal)
  | _, _, [] => .ok []
  | i, seen, s :: rest =>
    if ¬s.isObj then normFullSteps planId (i + 1) seen rest
    else do
      let idV := s.look "id"
      let sid0 ←
        if idV.truthy then pure (pyStr idV)
        else do
          let sliced ← titleSlice (s.lookD "title" (jstr ""))
          pure (shaId (planId ++ "|" ++ toString i ++ "|" ++ sliced))
      let sid := if sid0 ∈ seen then shaId (sid0 ++ toString i) else sid0
      let tV := s.look "type"
      let st0 := if tV.truthy then pyStr tV else "note"
      let stype := if st0 = "tool" ∨ st0 = "llm" ∨ st0 = "note" then st0 else "note"
      let titV := s.look "title"
      let tit0 := if titV.truthy then pyStr titV else "step-" ++ toString i
      let title := pyTake (pyStrip tit0) 200
      let deps2 := normDeps (s.look "depends_on")
      let toolNorm := if stype = "tool" then normalizeTool (s.look "tool") else jnull
      let promptNorm :=
        if stype = "llm" then
          let pV := s.look "prompt"
          jstr (pyTake (pyStrip (if pV.truthy then pyStr pV else "")) 8000)
        else jnull
      let sV := s.look "status"
      let st1 := if sV.truthy then pyStr sV else "pending"
      let statusNorm :=
        if st1 = "pending" ∨ st1 = "done" ∨ st1 = "failed" ∨ st1 = "skipped" then st1
        else "pending"
      let resV := s.look "result"
      let result := if resV.isObj then resV else jnull
      let step := jobj [("id", jstr sid), ("title", jstr title),
        ("type", jstr stype), ("depends_on", jarr deps2), ("tool", toolNorm),
        ("prompt", promptNorm), ("status", jstr statusNorm), ("result", result)]
      let tail ← normFullSteps planId (i + 1) (sid :: seen) rest
      pure (step :: tail)

/-- `Planner._normalize_full_plan(obj, goal_fallback)`. -/
def normalizeFullPlan (obj : JVal) (goalFallback : String) (now : Int) :
    Except PyExc JVal := do
  let pidV := obj.look "plan_id"
  let planId := if pidV.truthy then pyStr pidV else shaId (pyTake (jsonDumps obj) 2000)
  let gV := obj.look "goal"
  let goal := pyStrip
    (if gV.truthy then pyStr gV
     else if goalFallback ≠ "" then goalFallback else "task")
  let ctsV := obj.look "created_ts"
  let createdTs ← if ctsV.truthy then pyFloat ctsV else pure now
  let stV := obj.lookD "status" jnull
  let status := if stV.truthy then pyStr stV else "new"
  let stepsIn := obj.lookD "steps" (jarr [])
  match stepsIn with
  | jarr rawSteps =>
    if rawSteps.length > 10000 then
      pure (jobj [("ok", jbool false), ("error", jstr "TOO_MANY_STEPS"),
        ("details", jobj [("max", jnum 10000), ("got", jnum rawSteps.length)])])
    else do
      let steps ← normFullSteps planId 0 [] rawSteps
      let cpV := obj.look "checkpoints"
      let checkpoints := if cpV.isArr then cpV else jarr []
      pure (jobj [("ok", jbool true),
        ("plan", jobj [("plan_id", jstr planId), ("goal", jstr goal),
          ("created_ts", jnum createdTs), ("status", jstr status),
          ("steps", jarr steps), ("checkpoints", checkpoints)]),
        ("error", jnull), ("details", jnull)])
  | _ => pure (jobj [("ok", jbool false), ("error", jstr "INVALID_STEPS")])

/-- `Planner._normalize_toolcalls_plan(obj, goal_fallback)`. -/
def normalizeToolcallsPlan (obj : JVal) (goalFallback : String) (now : Int) :
    Except PyExc JVal := do
  let gV := obj.look "goal"
  let goal := pyStrip
    (if gV.truthy then pyStr gV
     else if goalFallback ≠ "" then goalFallback else "task")
  let base := newPlan (jstr goal) now
  if ¬(base.look "ok").truthy then pure base
  else do
    let plan := base.look "plan"
    let planId := pyStr (plan.look "plan_id")
    let tcV := obj.lookD "tool_calls" (jarr [])
    let tc := match tcV with | jarr xs => xs | _ => []
    let toolSteps := tc.enum.map (fun ci =>
      let tool := normalizeTool ci.2
      let i := ci.1
      jobj [("id", jstr (shaId (planId ++ "|tool|" ++ toString i ++ "|" ++
          pyStr (tool.look "name") ++ "|" ++ pyStr (tool.look "method")))),
        ("title", jstr ("tool:" ++ pyStr (tool.look "name") ++ ":" ++
          pyStr (tool.look "method"))),
        ("type", jstr "tool"), ("depends_on", jarr []), ("tool", tool),
        ("prompt", jnull), ("status", jstr "pending"), ("result", jnull)])
    let finalV := obj.look "final"
    let finalText := pyStrip (if finalV.truthy then pyStr finalV else "")
    let noteStep := jobj [("id", jstr (shaId (planId ++ "|note|final"))),
      ("title", jstr "final"), ("type", jstr "note"),
      ("depends_on", jarr (toolSteps.map (fun s => s.look "id"))),
      ("tool", jnull), ("prompt", jnull),
      ("status", jstr (if toolSteps.isEmpty then "done" else "pending")),
      ("result", if finalText ≠ "" then jobj [("final", jstr finalText)] else jnull)]
    let steps := toolSteps ++ [noteStep]
    let plan2 := match plan with
      | jobj kvs => jobj (setKey kvs "steps" (jarr steps))
      | other => other
    pure (jobj [("ok", jbool true), ("plan", plan2),
      ("error", jnull), ("details", jnull)])

/-- `Planner.normalize_plan(plan_obj, goal_fallback)`: dialect dispatch
with the top-level `try/except` catching into
`PLANNER_NORMALIZE_EXCEPTION`. -/
def normalizePlan (planObj : JVal) (goalFallback : String) (now : Int) : JVal :=
  let body : Except PyExc JVal :=
    match planObj with
    | jobj kvs =>
      if (kvs.lookup "steps").isSome then normalizeFullPlan planObj goalFallback now
      else if (kvs.lookup "tool_calls").isSome then
        normalizeToolcallsPlan planObj goalFallback now
      else
        pure (jobj [("ok", jbool false), ("error", jstr "UNSUPPORTED_PLAN_FORMAT"),
          ("details", jobj [("type", jstr (pyTypeName planObj))])])
    | other =>
      pure (jobj [("ok", jbool false), ("error", jstr "UNSUPPORTED_PLAN_FORMAT"),
        ("details", jobj [("type", jstr (pyTypeName other))])])
  match body with
  | .ok v => v
  | .error e =>
    jobj [("ok", jbool false), ("error", jstr "PLANNER_NORMALIZE_EXCEPTION"),
      ("details", jobj [("type", jstr e.ty), ("message", jstr e.msg)])]

/-- The id set `{s.get("id") for s in steps if s.get("status") == "done"}`
of `Planner.get_ready_tool_batch`. -/
def collectDoneIds : List JVal → Except PyExc (List JVal)
  | [] => .ok []
  | s :: rest => do
    let st ← s.pyGet "status"
    if st = jstr "done" then do
      let idV ← s.pyGet "id"
      if ¬idV.hashable then .error ⟨"TypeError", "unhashable type"⟩
      else do
        let tail ← collectDoneIds rest
        pure (idV :: tail)
    else collectDoneIds rest

/-- `all(d in done for d in deps)`. -/
def allDepsDone (done : List JVal) (deps : List JVal) : Except PyExc Bool :=
  match deps with
  | [] => .ok true
  | d :: rest => do
    let m ← setMem done d
    if m then allDepsDone done rest else pure false

/-- The readiness filter of `Planner.get_ready_tool_batch`: pending tool
steps whose dependencies are all in the done-id set. -/
def pendingToolSteps (done : List JVal) : List JVal → Except PyExc (List JVal)
  | [] => .ok []
  | s :: rest => do
    let st ← s.pyGet "status"
    if st ≠ jstr "pending" then pendingToolSteps done rest
    else do
      let ty ← s.pyGet "type"
      if ty ≠ jstr "tool" then pendingToolSteps done rest
      else do
        let dV ← s.pyGet "depends_on"
        let deps := if dV.truthy then dV else jarr []
        let depsL ← pyIter deps
        let ready ← allDepsDone done depsL
        if ready then do
          let tail ← pendingToolSteps done rest
          pure (s :: tail)
        else pendingToolSteps done rest

/-- The call construction of `Planner.get_ready_tool_batch` for one
batched step. -/
def mkToolCall (s : JVal) : Except PyExc JVal := do
  let toolV ← s.pyGet "tool"
  let tool := if toolV.truthy then toolV else jobj []
  let name ← tool.pyGet "name"
  let method ← tool.pyGet "method"
  let argsV ← tool.pyGet "args"
  let args := if argsV.truthy then argsV else jobj []
  let sid ← s.pyGet "id"
  pure (jobj [("name", name), ("method", method), ("args", args),
    ("_step_id", sid)])

/-- `Planner.get_ready_tool_batch(plan, batch_size)` with the top-level
`try/except` catching into `PLANNER_BATCH_EXCEPTION`.  The `batch_size`
argument is an integer, as the signature declares. -/
def getReadyToolBatch (plan : JVal) (batchSize : Int) : JVal :=
  let body : Except PyExc JVal := do
    match plan with
    | jobj kvs =>
      if (kvs.lookup "steps").isNone then
        pure (jobj [("ok", jbool false), ("error", jstr "INVALID_PLAN"),
          ("details", jnull)])
      else
        match plan.lookD "steps" (jarr []) with
        | jarr steps =>
          if batchSize ≤ 0 ∨ batchSize > 200 then
            pure (jobj [("ok", jbool false), ("error", jstr "INVALID_BATCH_SIZE"),
              ("details", jobj [("batch_size", jnum batchSize)])])
          else do
            let done ← collectDoneIds steps
            let pending ← pendingToolSteps done steps
            let batch := pending.take batchSize.toNat
            let toolCalls ← batch.mapM mkToolCall
            let remaining : Int := pending.length - toolCalls.length
            pure (jobj [("ok", jbool true), ("tool_calls", jarr toolCalls),
              ("remaining", jnum (max 0 remaining))])
        | _ =>
          pure (jobj [("ok", jbool false), ("error", jstr "INVALID_STEPS"),
            ("details", jnull)])
    | _ =>
      pure (jobj [("ok", jbool false), ("error", jstr "INVALID_PLAN"),
        ("details", jnull)])
  match body with
  | .ok v => v
  | .error e =>
    jobj [("ok", jbool false), ("error", jstr "PLANNER_BATCH_EXCEPTION"),
      ("details", jobj [("type", jstr e.ty), ("message", jstr e.msg)])]

/-- The id index `{s.get("id"): s for s in steps if isinstance(s, dict)}`
of `Planner.apply_tool_results`, as pairs of id and step position (a later
binding for the same id overwrites an earlier one, like the dictionary
comprehension). -/
def buildIdIndex : List JVal → Nat → Except PyExc (List (JVal × Nat))
  | [], _ => .ok []
  | s :: rest, i =>
    match s with
    | jobj kvs => do
      let idV := (kvs.lookup "id").getD jnull
      if ¬idV.hashable then .error ⟨"TypeError", "unhashable type"⟩
      else do
        let tail ← buildIdIndex rest (i + 1)
        pure ((idV, i) :: tail)
    | _ => buildIdIndex rest (i + 1)

/-- Dictionary lookup in the id index (later bindings win). -/
def idxFind (idx : List (JVal × Nat)) (key : JVal) : Option Nat :=
  (idx.reverse.find? (fun p => p.1 == key)).map (fun p => p.2)

/-- The fallback scan of `Planner.apply_tool_results`: the first pending
tool step whose tool name and method match the result. -/
def findFallback (n m : JVal) : List JVal → Nat → Except PyExc (Option Nat)
  | [], _ => .ok none
  | s :: rest, i => do
    let st ← s.pyGet "status"
    if st = jstr "pending" then do
      let ty ← s.pyGet "type"
      if ty = jstr "tool" then do
        let toolV ← s.pyGet "tool"
        let tool := if toolV.truthy then toolV else jobj []
        let tn ← tool.pyGet "name"
        let tm ← tool.pyGet "method"
        if tn = n ∧ tm = m then pure (some i)
        else findFallback n m rest (i + 1)
      else findFallback n m rest (i + 1)
    else findFallback n m rest (i + 1)

/-- Marks one step with the result and the derived status
(`target["result"] = r; target["status"] = ...`). -/
def markOne (s r : JVal) : JVal :=
  match s with
  | jobj kvs =>
    jobj (setKey (setKey kvs "result" r) "status"
      (jstr (if (r.look "ok").truthy then "done" else "failed")))
  | other => other

/-- Marks the step at a position. -/
def markStep (steps : List JVal) (i : Nat) (r : JVal) : List JVal :=
  steps.mapIdx (fun j s => if j = i then markOne s r else s)

/-- The result loop of `Planner.apply_tool_results` over the mutable step
list. -/
def applyResults (idx : List (JVal × Nat)) :
    List JVal → List JVal → Except PyExc (List JVal)
  | steps, [] => .ok steps
  | steps, r :: rest =>
    match r with
    | jobj _ => do
      let stepId := r.look "_step_id"
      let viaId := if stepId.isStr then idxFind idx stepId else none
      let target ←
        match viaId with
        | some i => pure (some i)
        | none => findFallback (r.look "name") (r.look "method") steps 0
      match target with
      | none => applyResults idx steps rest
      | some i => applyResults idx (markStep steps i r) rest
    | _ => applyResults idx steps rest

/-- `Planner.apply_tool_results(plan, tool_results)` with the top-level
`try/except` catching into `PLANNER_APPLY_EXCEPTION`. -/
def applyToolResults (plan : JVal) (toolResults : JVal) : JVal :=
  let body : Except PyExc JVal := do
    match plan with
    | jobj kvs =>
      if (kvs.lookup "steps").isNone then
        pure (jobj [("ok", jbool false), ("error", jstr "INVALID_PLAN"),
          ("details", jnull)])
      else
        match toolResults with
        | jarr results =>
          match plan.lookD "steps" (jarr []) with
          | jarr steps => do
            let idx ← buildIdIndex steps 0
            let steps2 ← applyResults idx steps results
            pure (jobj [("ok", jbool true),
              ("plan", jobj (setKey kvs "steps" (jarr steps2))),
              ("error", jnull), ("details", jnull)])
          | other => do
            -- a non-list "steps" value is still iterated by the index
            -- comprehension and the fallback scan, which raise on
            -- non-iterables and on non-dictionary elements respectively;
            -- no mutation can reach the plan in this case
            let stepsL ← pyIter other
            let idx ← buildIdIndex stepsL 0
            let _ ← applyResults idx stepsL results
            pure (jobj [("ok", jbool true), ("plan", jobj kvs),
              ("error", jnull), ("details", jnull)])
        | other =>
          pure (jobj [("ok", jbool false), ("error", jstr "INVALID_TOOL_RESULTS"),
            ("details", jobj [("type", jstr (pyTypeName other))])])
    | _ =>
      pure (jobj [("ok", jbool false), ("error", jstr "INVALID_PLAN"),
        ("details", jnull)])
  match body with
  | .ok v => v
  | .error e =>
    jobj [("ok", jbool false), ("error", jstr "PLANNER_APPLY_EXCEPTION"),
      ("details", jobj [("type", jstr e.ty), ("message", jstr e.msg)])]

/-! ### `core/tools/browser/browser_tools.py` -/

/-- `BrowserTools._load_allowlist_env` applied to the raw value of
`AICORE_HTTP_ALLOWLIST`. -/
def loadAllowlist (raw : String) : List String :=
  let r := pyStrip raw
  if r = "" then []
  else ((pySplit r ',').filter (fun p => pyStrip p ≠ "")).map
    (fun p => pyLower (pyStrip p))

/-- `BrowserTools._host_allowlisted(host)`. -/
def hostAllowlisted (allowlist : List String) (host : String) : Bool :=
  let h := pyLower host
  allowlist.any (fun p =>
    p = h ∨ (pyStartsWith p "*." ∧ pyEndsWith h (pyDrop p 1) ∧ h ≠ pyDrop p 2))

/-- `BrowserTools._is_blocked_ipv4(ip)` (the `int` conversions can raise
on a malformed resolver string). -/
def isBlockedIpv4 (ip : String) : Except PyExc Bool :=
  let parts := pySplit ip '.'
  if parts.length ≠ 4 then .ok false
  else do
    let nums ← parts.mapM pyIntOfStr
    let a := nums.getD 0 0
    let b := nums.getD 1 0
    pure (a = 0 ∨ a = 10 ∨ a = 127 ∨ (a = 169 ∧ b = 254) ∨
      (a = 172 ∧ 16 ≤ b ∧ b ≤ 31) ∨ (a = 192 ∧ b = 168) ∨
      (a = 100 ∧ 64 ≤ b ∧ b ≤ 127))

/-- `BrowserTools._is_blocked_ipv6(ip)`. -/
def isBlockedIpv6 (ip : String) : Bool :=
  let s := pyLower ip
  s = "::1" ∨ pyStartsWith s "fe80:" ∨ pyStartsWith s "fc" ∨ pyStartsWith s "fd"

/-- `BrowserTools._is_blocked_ip(ip)`. -/
def isBlockedIp (ip : String) : Except PyExc Bool :=
  if ip.data.contains ':' then .ok (isBlockedIpv6 ip) else isBlockedIpv4 ip

/-- Order-preserving deduplication (`if ip not in ips: ips.append(ip)`),
keeping first occurrences. -/
def dedupAux (seen : List String) : List String → List String
  | [] => []
  | x :: xs => if x ∈ seen then dedupAux seen xs else x :: dedupAux (x :: seen) xs

/-- Order-preserving deduplication, as `_resolve_ips` performs it. -/
def dedup (l : List String) : List String :=
  dedupAux [] l

/-- `BrowserTools._resolve_ips(host)`: DNS resolution is the explicit
`resolver` argument; a resolver exception yields the empty list. -/
def resolveIps (resolver : String → Except PyExc (List String)) (host : String) :
    List String :=
  match resolver host with
  | .ok ips => dedup ips
  | .error _ => []

/-- A scheme character after the first (`urllib.parse` rules). -/
def isSchemeChar (c : Char) : Bool :=
  c.isAlphanum || c = '+' || c = '-' || c = '.'

/-- The `(scheme, hostname)` fragment of `urllib.parse.urlparse` that
`_validate_url` consumes. -/
structure ParsedUrl where
  scheme : String
  hostname : Option String
deriving DecidableEq, Repr

/-- `urllib.parse.urlparse(u)` restricted to scheme and hostname: the
scheme is the lowercased valid prefix before the first colon; the network
location follows a double slash and ends at a slash, question mark or
hash; the hostname drops userinfo, takes the bracketed form for IPv6
literals or the part before the port colon, and is lowercased. -/
def parseUrl (u : String) : ParsedUrl :=
  let cs := u.data
  let (scheme, rest) :=
    match cs.findIdx? (· = ':') with
    | some i =>
      let pre := cs.take i
      if i > 0 ∧ (pre.headD ' ').isAlpha ∧ pre.all isSchemeChar then
        ((pre.map Char.toLower), cs.drop (i + 1))
      else ("".data, cs)
    | none => ("".data, cs)
  let hostname :=
    match rest with
    | '/' :: '/' :: tail =>
      let netloc := tail.takeWhile (fun c => c ≠ '/' ∧ c ≠ '?' ∧ c ≠ '#')
      let hostport :=
        match (netloc.reverse.findIdx? (· = '@')) with
        | some j => netloc.drop (netloc.length - j)
        | none => netloc
      let host :=
        match hostport with
        | '[' :: inner => inner.takeWhile (· ≠ ']')
        | _ => hostport.takeWhile (· ≠ ':')
      if host.isEmpty then none else some (String.mk (host.map Char.toLower))
    | _ => none
  ⟨String.mk scheme, hostname⟩

/-- The per-address loop of `_validate_url`: the first blocked,
non-allowlisted address rejects the URL. -/
def checkIps (allowlist : List String) (host : String) (u : String) :
    List String → List String → Except PyExc (Bool × String × JVal)
  | all, [] =>
    .ok (true, u, jobj [("host", jstr host),
      ("ips", jarr (all.map jstr)),
      ("allowlist", jarr (allowlist.map jstr))])
  | all, ip :: rest => do
    let blocked ← isBlockedIp ip
    if blocked ∧ ¬hostAllowlisted allowlist host then
      pure (false, "LAN_HOST_NOT_ALLOWLISTED",
        jobj [("host", jstr host), ("ip", jstr ip),
          ("allowlist", jarr (allowlist.map jstr))])
    else checkIps allowlist host u all rest

/-- `BrowserTools._validate_url(url)`: the returned triple is the Python
`(ok, url_or_error, details)`. -/
def validateUrl (allowlist : List String)
    (resolver : String → Except PyExc (List String)) (url : JVal) :
    Except PyExc (Bool × String × JVal) := do
  if ¬(url.isStr ∧ pyStrip (pyStr url) ≠ "") then
    pure (false, "INVALID_URL", jobj [("url", url)])
  else
    let u := pyStrip (pyStr url)
    let parsed := parseUrl u
    if parsed.scheme ≠ "http" ∧ parsed.scheme ≠ "https" then
      pure (false, "INVALID_SCHEME", jobj [("scheme", jstr parsed.scheme)])
    else
      match parsed.hostname with
      | none => pure (false, "MISSING_HOST", jobj [("url", jstr u)])
      | some host =>
        let ips := resolveIps resolver host
        if ips.isEmpty then
          pure (false, "DNS_RESOLUTION_FAILED", jobj [("host", jstr host)])
        else checkIps allowlist host u ips ips

/-- An HTTP response as the fetch oracle delivers it: status code, header
pairs and raw body bytes. -/
structure HttpResp where
  status : Int
  headers : List (String × String)
  body : List Nat

/-- The ambient effects of `BrowserTools.run`: the network fetch, byte
decoding for a named charset, and JSON parsing. -/
structure BrowserEnv where
  resolver : String → Except PyExc (List String)
  fetch : String → Int → Except PyExc HttpResp
  decode : List Nat → String → Except PyExc String
  jsonLoads : String → Except PyExc JVal

/-- Is the value a Python `int` for `isinstance` purposes (booleans
included), and its value. -/
def pyAsInt : JVal → Option Int
  | jnum n => some n
  | jbool b => some (if b then 1 else 0)
  | _ => none

/-- Substring containment (Python `needle in hay`). -/
def containsSub (hay needle : String) : Bool :=
  (List.range (hay.data.length + 1)).any
    (fun i => (hay.data.drop i).take needle.data.length = needle.data)

/-- The charset extraction of `BrowserTools._decode_text`: the regex
`charset=([A-Za-z0-9._-]+)` searched case-insensitively. -/
def findCharset (ct : String) : Option String :=
  let cs := ct.data
  let hit := (List.range cs.length).findSome? (fun i =>
    let sub := cs.drop i
    if (sub.take 8).map Char.toLower = "charset=".data then
      let run := (sub.drop 8).takeWhile
        (fun c => c.isAlphanum || c = '.' || c = '_' || c = '-')
      if run.isEmpty then none else some (String.mk run)
    else none)
  hit

/-- `BrowserTools._truncate_bytes`. -/
def truncateBytes (data : List Nat) (maxBytes : Nat) : List Nat × Bool :=
  if data.length > maxBytes then (data.take maxBytes, true) else (data, false)

/-- The fixed result skeleton of `BrowserTools.run`. -/
def browserOutBase : List (String × JVal) :=
  [("ok", jbool false), ("url", jnull), ("status", jnull), ("headers", jnull),
   ("content_type", jnull), ("text", jnull), ("json", jnull),
   ("body_truncated", jnull), ("text_truncated", jnull),
   ("error", jnull), ("details", jnull)]

/-- Fills the error and details fields of the result skeleton. -/
def browserErrOut (base : List (String × JVal)) (err : String) (details : JVal) :
    JVal :=
  jobj (setKey (setKey base "error" (jstr err)) "details" details)

/-- `BrowserTools.run(method, args)`: guardrail validation, fetch,
truncation and decoding, with every exception caught into
`BROWSERTOOLS_EXCEPTION` — the method never raises. -/
def browserRun (allowlist : List String) (env : BrowserEnv)
    (method args : JVal) : JVal :=
  if ¬(method.isStr ∧ method.truthy) then
    browserErrOut browserOutBase "INVALID_METHOD" (jobj [("method", method)])
  else if ¬args.isObj then
    browserErrOut browserOutBase "INVALID_ARGS"
      (jobj [("type", jstr (pyTypeName args))])
  else if method ≠ jstr "http_get" then
    browserErrOut browserOutBase "UNKNOWN_METHOD" (jobj [("method", method)])
  else
    let url := args.lookD "url" (jstr "")
    let timeoutV := args.lookD "timeout_sec" (jnum 15)
    let maxBytesV := args.lookD "max_bytes" (jnum 2000000)
    let maxCharsV := args.lookD "max_text_chars" (jnum 2000000)
    match pyAsInt timeoutV with
    | none =>
      browserErrOut browserOutBase "INVALID_TIMEOUT"
        (jobj [("timeout_sec", timeoutV)])
    | some timeout =>
      if timeout ≤ 0 ∨ timeout > 300 then
        browserErrOut browserOutBase "INVALID_TIMEOUT"
          (jobj [("timeout_sec", timeoutV)])
      else
        match pyAsInt maxBytesV with
        | none =>
          browserErrOut browserOutBase "INVALID_MAX_BYTES"
            (jobj [("max_bytes", maxBytesV)])
        | some maxBytes =>
          if maxBytes ≤ 0 ∨ maxBytes > 200000000 then
            browserErrOut browserOutBase "INVALID_MAX_BYTES"
              (jobj [("max_bytes", maxBytesV)])
          else
            match pyAsInt maxCharsV with
            | none =>
              browserErrOut browserOutBase "INVALID_MAX_TEXT_CHARS"
                (jobj [("max_text_chars", maxCharsV)])
            | some maxChars =>
              if maxChars ≤ 0 ∨ maxChars > 200000000 then
                browserErrOut browserOutBase "INVALID_MAX_TEXT_CHARS"
                  (jobj [("max_text_chars", maxCharsV)])
              else
                match validateUrl allowlist env.resolver url with
                | .error e =>
                  browserErrOut browserOutBase "BROWSERTOOLS_EXCEPTION"
                    (jobj [("type", jstr e.ty), ("message", jstr e.msg)])
                | .ok (vok, vurlOrErr, vdetails) =>
                  if ¬vok then
                    browserErrOut browserOutBase vurlOrErr vdetails
                  else
                    let out1 := setKey browserOutBase "url" (jstr vurlOrErr)
                    let fetched : Except PyExc JVal := do
                      let resp ← env.fetch vurlOrErr timeout
                      let ct := ((resp.headers.lookup "Content-Type").getD "")
                      let raw := resp.body.take (maxBytes.toNat + 1)
                      let (raw2, bodyTrunc) := truncateBytes raw maxBytes.toNat
                      let charset := (findCharset ct).getD "utf-8"
                      let text0 ← env.decode raw2 charset
                      let (text, textTrunc) :=
                        if text0.data.length > maxChars.toNat then
                          (pyTake text0 maxChars.toNat, true)
                        else (text0, false)
                      let parsedJson :=
                        if containsSub (pyLower ct) "application/json" then
                          match env.jsonLoads text with
                          | .ok v => v
                          | .error _ => jnull
                        else jnull
                      let out2 := setKey out1 "ok" (jbool true)
                      let out3 := setKey out2 "status" (jnum resp.status)
                      let out4 := setKey out3 "headers"
                        (jobj (resp.headers.map (fun kv => (kv.1, jstr kv.2))))
                      let out5 := setKey out4 "content_type" (jstr ct)
                      let out6 := setKey out5 "text" (jstr text)
                      let out7 := setKey out6 "json" parsedJson
                      let out8 := setKey out7 "body_truncated" (jbool bodyTrunc)
                      let out9 := setKey out8 "text_truncated" (jbool textTrunc)
                      pure (jobj out9)
                    match fetched with
                    | .ok outv => outv
                    | .error e =>
                      browserErrOut out1 "BROWSERTOOLS_EXCEPTION"
                        (jobj [("type", jstr e.ty), ("message", jstr e.msg)])

/-! ### `gateway_init_.py` (HTTP front door) -/

/-- `MAX_BODY_BYTES` from the gateway: one mebibyte. -/
def maxBodyBytes : Int := 1024 * 1024

/-- `MAX_MESSAGE_CHARS` from the gateway. -/
def maxMessageChars : Nat := 100000

/-- The methods defined on the kernel `MasterAgent` class
(`core/kernel/master_agent.py`); attribute access outside this list
raises `AttributeError`. -/
def masterAgentAttrs : List String :=
  ["warmup_status", "ensure_warmup_async", "handle_chat", "memory", "rag",
   "context", "tools", "planner", "plan_store", "llm"]

/-- `AGENT.health_llm()` as executed against the kernel `MasterAgent`:
the class defines no such method, so the call raises `AttributeError`
whatever the actual reachability of the LLM endpoint (the
`llmReachable` argument). -/
def agentHealthLlm (llmReachable : Bool) : Except PyExc (Bool × JVal) :=
  if "health_llm" ∈ masterAgentAttrs then
    .ok (llmReachable, jobj [])
  else
    .error ⟨"AttributeError", "MasterAgent object has no attribute health_llm"⟩

/-- `_health_llm_details()`: never throws, always a pair. -/
def healthLlmDetails (llmReachable : Bool) : Bool × JVal :=
  match agentHealthLlm llmReachable with
  | .ok (ok, details) =>
    (ok, if details.isObj then details else jobj [("details", details)])
  | .error e => (false, jobj [("type", jstr e.ty), ("message", jstr e.msg)])

/-- The gateway warmup status record. -/
structure WarmupState where
  started : Bool
  done : Bool
  ok : Bool
  ms : Int
  err : Option String
deriving DecidableEq, Repr

/-- `_warmup()`: the recorded state after the warmup attempt finished
(elapsed time is the explicit `ms`). -/
def gatewayWarmup (llmReachable : Bool) (ms : Int) : WarmupState :=
  match agentHealthLlm llmReachable with
  | .ok (ok, details) =>
    ⟨true, true, ok, ms, if ok then none else some (jsonDumps details)⟩
  | .error e => ⟨true, true, false, ms, some (e.ty ++ ":" ++ e.msg)⟩

/-- `Handler.do_GET`: route dispatch to status code and JSON payload.
The warmup state is an argument to make explicit that no route except
`/metrics` (whose snapshot is the opaque `metrics` argument) consults
it. -/
def doGet (warmup : WarmupState) (llmReachable : Bool) (metrics : JVal)
    (path : String) : Int × JVal :=
  let _ := warmup
  if path = "/health" then (200, jobj [("ok", jbool true)])
  else if path = "/health/llm" then
    let (ok, details) := healthLlmDetails llmReachable
    if ok then (200, jobj [("ok", jbool true), ("details", details)])
    else (503, jobj [("ok", jbool false), ("error", jstr "LLM_UNREACHABLE"),
      ("details", details)])
  else if path = "/metrics" then (200, metrics)
  else (404, jobj [("ok", jbool false), ("error", jstr "NOT_FOUND")])

/-- `Handler.do_POST`: the admission chain of the `/chat` route, from the
path check to the orchestrator call, as status code and JSON payload.
Inputs that the handler reads from ambient state are explicit: the
rate-limit verdict, the concurrency-acquire verdict, the raw
`Content-Length` header, the parse outcome of the raw body bytes
(`json.loads`), and the orchestrator `agent`.  Exceptions anywhere in the
chain are caught into `500 GATEWAY_EXCEPTION`. -/
def doPost (agent : String → String → Option String → JVal)
    (rateOk : Bool) (acquireOk : Bool) (clenHeader : String)
    (parseBody : Except PyExc JVal) (path : String) : Int × JVal :=
  let body : Except PyExc (Int × JVal) := do
    if path ≠ "/chat" then
      pure (404, jobj [("ok", jbool false), ("error", jstr "NOT_FOUND")])
    else if ¬rateOk then
      pure (429, jobj [("ok", jbool false), ("error", jstr "RATE_LIMITED")])
    else if ¬acquireOk then
      pure (503, jobj [("ok", jbool false), ("error", jstr "BUSY")])
    else do
      let clen ← pyIntOfStr (if clenHeader = "" then "0" else clenHeader)
      if clen > maxBodyBytes then
        pure (413, jobj [("ok", jbool false), ("error", jstr "PAYLOAD_TOO_LARGE"),
          ("limit_bytes", jnum maxBodyBytes)])
      else do
        let bodyV ← if clen > 0 then parseBody else pure (jobj [])
        if ¬bodyV.isObj then
          pure (400, jobj [("ok", jbool false), ("error", jstr "INVALID_SCHEMA")])
        else
          match bodyV.look "message" with
          | jstr message =>
            if message.length > maxMessageChars then
              pure (413, jobj [("ok", jbool false),
                ("error", jstr "PAYLOAD_TOO_LARGE"),
                ("limit_chars", jnum maxMessageChars)])
            else
              match bodyV.lookD "session_id" (jstr "default") with
              | jstr sid =>
                let pid := bodyV.lookD "plan_id" jnull
                match pid with
                | jnull => pure (200, agent message sid none)
                | jstr p => pure (200, agent message sid (some p))
                | _ =>
                  pure (400, jobj [("ok", jbool false),
                    ("error", jstr "INVALID_REQUEST"),
                    ("details", jobj [("plan_id", jstr "must be string")])])
              | _ =>
                pure (400, jobj [("ok", jbool false),
                  ("error", jstr "INVALID_REQUEST"),
                  ("details", jobj [("session_id", jstr "must be string")])])
          | _ =>
            pure (400, jobj [("ok", jbool false),
              ("error", jstr "INVALID_REQUEST"),
              ("details", jobj [("missing_or_type", jstr "message")])])
  match body with
  | .ok r => r
  | .error e =>
    (500, jobj [("ok", jbool false), ("error", jstr "GATEWAY_EXCEPTION"),
      ("details", jobj [("type", jstr e.ty), ("message", jstr e.msg)])])

/-! ### `core/rag/rag_engine.py` and `core/memory/context_policy.py` -/

/-- One row of the `chunks` table: primary key `(source_id, chunk_id)`,
then `(text, meta_json, updated_ts)`. -/
abbrev RagRow := (String × String) × (String × Option String × Int)

/-- The `chunks` table in insertion order. -/
abbrev RagStore := List RagRow

/-- `INSERT ... ON CONFLICT(source_id, chunk_id) DO UPDATE`: replaces the
row in place on a primary-key hit, appends otherwise. -/
def ragUpsertRow (store : RagStore) (key : String × String) (text : String)
    (metaJson : Option String) (ts : Int) : RagStore :=
  if store.any (fun r => r.1 = key) then
    store.map (fun r => if r.1 = key then (key, (text, metaJson, ts)) else r)
  else store ++ [(key, (text, metaJson, ts))]

/-- `RAGEngine.upsert_chunk(source_id, chunk_id, text, meta)`: validation
then the conflict-replacing insert; returns the result dictionary and the
new table. -/
def upsertChunk (store : RagStore) (sourceId chunkId text meta : JVal)
    (ts : Int) : JVal × RagStore :=
  if ¬(sourceId.isStr ∧ pyStrip (pyStr sourceId) ≠ "") then
    (jobj [("ok", jbool false), ("error", jstr "INVALID_SOURCE_ID")], store)
  else if ¬(chunkId.isStr ∧ pyStrip (pyStr chunkId) ≠ "") then
    (jobj [("ok", jbool false), ("error", jstr "INVALID_CHUNK_ID")], store)
  else if ¬(text.isStr ∧ pyStrip (pyStr text) ≠ "") then
    (jobj [("ok", jbool false), ("error", jstr "INVALID_TEXT")], store)
  else if meta ≠ jnull ∧ ¬meta.isObj then
    (jobj [("ok", jbool false), ("error", jstr "INVALID_META")], store)
  else
    let metaJson := if meta.truthy then some (jsonDumps meta) else none
    let sid := pyStrip (pyStr sourceId)
    let cid := pyStrip (pyStr chunkId)
    let store2 := ragUpsertRow store (sid, cid) (pyStr text) metaJson ts
    (jobj [("ok", jbool true), ("source_id", jstr sid), ("chunk_id", jstr cid)],
      store2)

/-- One appended conversation turn: role, message, session, status. -/
abbrev Turn := String × String × String × String

/-- `ContextPolicy._distill(task, assistant_output)`. -/
def distill (task assistantOutput : String) : String :=
  let out := pyStrip assistantOutput
  let head := pyTake out 1200
  let tail := if out.length > 1200 then pyTail out 1200 else ""
  let parts := ["### TASK", task, "", "### RESULT (distilled)", head]
  let parts2 :=
    if tail ≠ "" ∧ tail ≠ head then parts ++ ["", "### RESULT (tail)", tail]
    else parts
  let text := pyJoin "\n" parts2
  if text.length > 5000 then pyTake text 5000 else text

/-- `ContextPolicy.finalize_task(task, assistant_output, session_id,
status)`: episodic append plus the deterministic summary upsert.  The
current date string and timestamp are explicit arguments; the result is
the returned dictionary together with the new conversation log and chunk
table. -/
def finalizeTask (memory : List Turn) (store : RagStore)
    (task assistantOutput status : JVal) (sessionId : String)
    (today : String) (ts : Int) : JVal × List Turn × RagStore :=
  if ¬(task.isStr ∧ pyStrip (pyStr task) ≠ "") then
    (jobj [("ok", jbool false), ("error", jstr "INVALID_TASK"),
      ("details", jnull), ("summary_chunk", jnull)], memory, store)
  else if ¬assistantOutput.isStr then
    (jobj [("ok", jbool false), ("error", jstr "INVALID_ASSISTANT_OUTPUT"),
      ("details", jnull), ("summary_chunk", jnull)], memory, store)
  else if ¬(status.isStr ∧ pyStrip (pyStr status) ≠ "") then
    (jobj [("ok", jbool false), ("error", jstr "INVALID_STATUS"),
      ("details", jnull), ("summary_chunk", jnull)], memory, store)
  else
    let output := pyStr assistantOutput
    let memory2 := memory ++ [("assistant", output, sessionId,
      pyStrip (pyStr status))]
    let raw := sessionId ++ "|" ++ today ++ "|" ++ pyStrip (pyStr task) ++ "|" ++
      pyTake output 2000
    let chunkId := pyTake (sha256hex raw) 24
    let distilled := distill (pyStrip (pyStr task)) output
    let meta := jobj [("session_id", jstr sessionId),
      ("status", jstr (pyStrip (pyStr status))), ("date", jstr today),
      ("ts", jnum ts), ("kind", jstr "task_summary")]
    let (res, store2) :=
      upsertChunk store (jstr "task_summaries") (jstr chunkId)
        (jstr distilled) meta ts
    if ¬(res.look "ok").truthy then
      (jobj [("ok", jbool false), ("error", jstr "RAG_UPSERT_FAILED"),
        ("details", res), ("summary_chunk", jnull)], memory2, store2)
    else
      (jobj [("ok", jbool true), ("error", jnull), ("details", jnull),
        ("summary_chunk", jobj [("source_id", jstr "task_summaries"),
          ("chunk_id", jstr chunkId)])], memory2, store2)

/-! ## Claim C7 — the two alias tables agree and match the spec table -/

/-- C7: for every input triple, the orchestrator alias canonicalization
(`MasterAgent._canonicalize_tool_call`) and `canonicalize` in
`tool_canonicalization.py` return identical results, and on
already-stripped string inputs the shared mapping is exactly the spec
table — browser fetch/get/get_url/download/httpget to http_get, terminal
exec/run/cmd to run_cmd, file read/write/ls/dir/mkdir to
read_text/write_text/list_dir/mkdirs — with every other pair left
unchanged. -/
theorem claim_C7_canonicalization_agreement :
    (∀ name method args : JVal,
      masterAgentCanonicalizeToolCall name method args =
        canonicalize name method args) ∧
    (∀ (n m : String) (a : JVal), pyStrip n = n → pyStrip m = m →
      canonicalize (jstr n) (jstr m) a =
        (n, specCanonicalMethod n m, if a.isObj then a else jobj [])) := by
  refine ⟨fun name method args => rfl, fun n m a hn hm => ?_⟩
  simp only [canonicalize, specCanonicalMethod, hn, hm]

/-- C7 witness: the agreement and the spec table at the concrete triple
`(browser, fetch, {})`. -/
theorem claim_C7_witness :
    masterAgentCanonicalizeToolCall (jstr "browser") (jstr "fetch") (jobj []) =
      canonicalize (jstr "browser") (jstr "fetch") (jobj []) ∧
    canonicalize (jstr "browser") (jstr "fetch") (jobj []) =
      ("browser", specCanonicalMethod "browser" "fetch",
        if (jobj []).isObj then jobj [] else jobj []) :=
  ⟨claim_C7_canonicalization_agreement.1 (jstr "browser") (jstr "fetch") (jobj []),
    claim_C7_canonicalization_agreement.2 "browser" "fetch" (jobj [])
      (by decide) (by decide)⟩

/-! ## Claim C4 — `/health` and the warmup state -/

/-- C4 counterexample: after a warmup attempt has completed with failure
(the recorded state of `_warmup` has `done = true`, `ok = false`),
`GET /health` still answers `200 {ok:true}`, not the claimed
`503 WARMUP_FAILED`. -/
theorem claim_C4_counterexample :
    (gatewayWarmup true 5).done = true ∧ (gatewayWarmup true 5).ok = false ∧
    doGet (gatewayWarmup true 5) true (jobj []) "/health" =
      (200, jobj [("ok", jbool true)]) := by
  refine ⟨rfl, rfl, rfl⟩

/-- C4 amended: `GET /health` returns `200 {ok:true}` unconditionally;
the handler never consults the warmup state and no `WARMUP_FAILED`
response exists. -/
theorem claim_C4_amended_health_always_ok
    (w : WarmupState) (llmReachable : Bool) (metrics : JVal) :
    doGet w llmReachable metrics "/health" = (200, jobj [("ok", jbool true)]) :=
  rfl

/-! ## Claim C5 — `/health/llm` can never report a reachable LLM -/

/-- C5: the kernel `MasterAgent` defines no `health_llm` method, so
`_health_llm_details` always swallows an `AttributeError` and
`GET /health/llm` answers `503 LLM_UNREACHABLE` for every warmup state
and every actual reachability of the LLM endpoint — the claimed
`200 {ok:true, details}` branch is unreachable. -/
theorem claim_C5_health_llm_always_503
    (w : WarmupState) (llmReachable : Bool) (metrics : JVal) :
    ("health_llm" ∉ masterAgentAttrs) ∧
    doGet w llmReachable metrics "/health/llm" =
      (503, jobj [("ok", jbool false), ("error", jstr "LLM_UNREACHABLE"),
        ("details", jobj [("type", jstr "AttributeError"),
          ("message", jstr "MasterAgent object has no attribute health_llm")])]) := by
  exact ⟨by decide, rfl⟩

/-! ## Proof helpers for the `Except` monad -/

theorem ebind_ok {α β : Type} (a : α) (f : α → Except PyExc β) :
    (Except.ok a >>= f) = f a := rfl

theorem ebind_err {α β : Type} (e : PyExc) (f : α → Except PyExc β) :
    ((Except.error e : Except PyExc α) >>= f) = .error e := rfl

/-! ## Claim C3 — `/chat` payload limits -/

/-- C3 counterexample: a request whose `Content-Length` declares
`262145` bytes — one byte over 256 KiB — is accepted and answered `200`,
not rejected with `413`: the gateway limit `MAX_BODY_BYTES` is one
mebibyte, and `MAX_MESSAGE_CHARS` is `100000`, not `32000`. -/
theorem claim_C3_counterexample :
    (262145 : Int) > 256 * 1024 ∧
    doPost (fun _ _ _ => jobj [("ok", jbool true)]) true true "262145"
      (.ok (jobj [("message", jstr "hi")])) "/chat" =
      (200, jobj [("ok", jbool true)]) :=
  ⟨by norm_num, rfl⟩

/-- C3 amended: `POST /chat` rejects a declared body size above
`MAX_BODY_BYTES = 1 MiB` with `413 PAYLOAD_TOO_LARGE`, rejects a message
longer than `MAX_MESSAGE_CHARS = 100000` characters with `413`, and
accepts a message of at most `100000` characters (in particular one of
exactly `100000`). -/
theorem claim_C3_amended_limits :
    (∀ agent ch clen pb,
      pyIntOfStr (if ch = "" then "0" else ch) = .ok clen →
      clen > maxBodyBytes →
      doPost agent true true ch pb "/chat" =
        (413, jobj [("ok", jbool false), ("error", jstr "PAYLOAD_TOO_LARGE"),
          ("limit_bytes", jnum maxBodyBytes)])) ∧
    (∀ agent ch clen kvs msg,
      pyIntOfStr (if ch = "" then "0" else ch) = .ok clen →
      0 < clen → clen ≤ maxBodyBytes →
      (jobj kvs).look "message" = jstr msg →
      msg.length > maxMessageChars →
      doPost agent true true ch (.ok (jobj kvs)) "/chat" =
        (413, jobj [("ok", jbool false), ("error", jstr "PAYLOAD_TOO_LARGE"),
          ("limit_chars", jnum maxMessageChars)])) ∧
    (∀ agent ch clen kvs msg sid,
      pyIntOfStr (if ch = "" then "0" else ch) = .ok clen →
      0 < clen → clen ≤ maxBodyBytes →
      (jobj kvs).look "message" = jstr msg →
      msg.length ≤ maxMessageChars →
      (jobj kvs).lookD "session_id" (jstr "default") = jstr sid →
      (jobj kvs).lookD "plan_id" jnull = jnull →
      doPost agent true true ch (.ok (jobj kvs)) "/chat" =
        (200, agent msg sid none)) := by
  refine ⟨?_, ?_, ?_⟩
  · intro agent ch clen pb hch hbig
    simp only [doPost, maxBodyBytes] at hbig ⊢
    rw [if_neg (by simp), if_neg (by simp), if_neg (by simp), hch, ebind_ok,
      if_pos hbig]
    rfl
  · intro agent ch clen kvs msg hch hpos hle hmsg hlen
    simp only [doPost, maxBodyBytes, maxMessageChars] at hle hlen ⊢
    rw [if_neg (by simp), if_neg (by simp), if_neg (by simp), hch, ebind_ok,
      if_neg (by omega), if_pos hpos, ebind_ok]
    simp only [isObj, Bool.not_true, Bool.false_eq_true, if_false, hmsg,
      if_pos hlen]
    rfl
  · intro agent ch clen kvs msg sid hch hpos hle hmsg hlen hsid hpid
    simp only [doPost, maxBodyBytes, maxMessageChars] at hle hlen ⊢
    rw [if_neg (by simp), if_neg (by simp), if_neg (by simp), hch, ebind_ok,
      if_neg (by omega), if_pos hpos, ebind_ok]
    simp only [isObj, Bool.not_true, Bool.false_eq_true, if_false, hmsg,
      if_neg (by omega : ¬msg.length > 100000), hsid, hpid]
    rfl

/-- C3 amended witness: the three branches at concrete requests — an
over-size declared body, a `100001`-character message, and an accepted
`100000`-character message. -/
theorem claim_C3_amended_witness :
    doPost (fun _ _ _ => jobj []) true true "2000000"
      (.ok (jobj [("message", jstr "x")])) "/chat" =
      (413, jobj [("ok", jbool false), ("error", jstr "PAYLOAD_TOO_LARGE"),
        ("limit_bytes", jnum maxBodyBytes)]) ∧
    doPost (fun _ _ _ => jobj []) true true "5"
      (.ok (jobj [("message", jstr ⟨List.replicate 100001 'a'⟩)])) "/chat" =
      (413, jobj [("ok", jbool false), ("error", jstr "PAYLOAD_TOO_LARGE"),
        ("limit_chars", jnum maxMessageChars)]) ∧
    doPost (fun _ _ _ => jobj []) true true "5"
      (.ok (jobj [("message", jstr ⟨List.replicate 100000 'a'⟩)])) "/chat" =
      (200, (fun (_ : String) (_ : String) (_ : Option String) => jobj [])
        ⟨List.replicate 100000 'a'⟩ "default" none) := by
  refine ⟨?_, ?_, ?_⟩
  · exact claim_C3_amended_limits.1 _ "2000000" 2000000 _ rfl (by decide)
  · exact claim_C3_amended_limits.2.1 _ "5" 5 _ _ rfl (by decide) (by decide)
      rfl (by rw [show (String.mk (List.replicate 100001 'a')).length =
        100001 from List.length_replicate _ _]; decide)
  · exact claim_C3_amended_limits.2.2 _ "5" 5 _ _ "default" rfl (by decide)
      (by decide) rfl (by rw [show (String.mk (List.replicate 100000
        'a')).length = 100000 from List.length_replicate _ _]; decide)
      rfl rfl

/-! ## Claim C10 — the tool router result contract -/

/-- The uniform result shape of `ToolRouter.execute`: success with a null
error, or a failure with a null result and one of the three router error
codes (with their documented details). -/
def routerResultShape (r : JVal) : Prop :=
  (r.look "ok" = jbool true ∧ r.look "error" = jnull) ∨
  (r.look "ok" = jbool false ∧ r.look "result" = jnull ∧
    (r.look "error" = jstr "INVALID_TOOL_CALL" ∨
     (r.look "error" = jstr "UNKNOWN_TOOL" ∧
       r.look "details" = jobj [("available", jarr (availableTools.map jstr))]) ∨
     (r.look "error" = jstr "TOOL_EXCEPTION" ∧
       ∃ ty msg, r.look "details" = jobj [("type", jstr ty), ("message", jstr msg)])))

theorem execOne_ok_shape (providers : ToolProviders) (kvs : List (String × JVal)) :
    ∃ r, execOne providers (jobj kvs) = .ok r ∧ routerResultShape r := by
  simp only [execOne, pyGet, ebind_ok]
  split
  · exact ⟨_, rfl, Or.inr ⟨rfl, rfl, Or.inl rfl⟩⟩
  · split
    · exact ⟨_, rfl, Or.inr ⟨rfl, rfl, Or.inr (Or.inl ⟨rfl, rfl⟩)⟩⟩
    · split
      · exact ⟨_, rfl, Or.inl ⟨rfl, rfl⟩⟩
      · exact ⟨_, rfl, Or.inr ⟨rfl, rfl, Or.inr (Or.inr ⟨rfl, _, _, rfl⟩)⟩⟩

/-- C10: for every provider behavior and every list of tool calls (each a
dictionary, as the declared `ToolCall` type states), `ToolRouter.execute`
returns without raising a list with exactly one result per input call —
the result at index `i` being the dispatch outcome of the call at index
`i` — and every result is either `ok=true` with a null error or
`ok=false` with a null result and error `INVALID_TOOL_CALL`,
`UNKNOWN_TOOL` (details listing the sorted available names) or
`TOOL_EXCEPTION` (details carrying the exception type and message). -/
theorem claim_C10_router_execute_contract (providers : ToolProviders)
    (calls : List JVal) (h : ∀ c ∈ calls, c.isObj = true) :
    ∃ rs, routerExecute providers calls = .ok rs ∧
      rs.length = calls.length ∧
      (∀ i (hi : i < calls.length) (hr : i < rs.length),
        execOne providers (calls.get ⟨i, hi⟩) = .ok (rs.get ⟨i, hr⟩)) ∧
      ∀ r ∈ rs, routerResultShape r := by
  induction calls with
  | nil =>
    refine ⟨[], rfl, rfl, ?_, ?_⟩
    · intro i hi
      exact absurd hi (by simp)
    · intro r hr
      exact absurd hr (by simp)
  | cons c cs ih =>
    have hc : c.isObj = true := h c (by simp)
    obtain ⟨kvs, rfl⟩ : ∃ kvs, c = jobj kvs := by
      cases c <;> simp [isObj] at hc ⊢
    obtain ⟨r, hr, hshape⟩ := execOne_ok_shape providers kvs
    obtain ⟨rs, hrs, hlen, hidx, hall⟩ := ih (fun c hc => h c (by simp [hc]))
    refine ⟨r :: rs, ?_, by simp [hlen], ?_, ?_⟩
    · simp only [routerExecute, hr, ebind_ok, hrs, ebind_ok]
      rfl
    · intro i hi hri
      match i, hi, hri with
      | 0, _, _ => exact hr
      | i + 1, hi, hri =>
        exact hidx i (by simpa using hi) (by simpa using hri)
    · intro x hx
      rcases List.mem_cons.mp hx with rfl | hx2
      · exact hshape
      · exact hall x hx2

/-- C10 witness: the contract applied to a concrete two-call batch — an
unknown tool name and a malformed call. -/
theorem claim_C10_witness :
    ∃ rs, routerExecute ⟨fun _ _ _ => .ok jnull⟩
        [jobj [("name", jstr "nosuch"), ("method", jstr "m"), ("args", jobj [])],
         jobj []] = .ok rs ∧
      rs.length = 2 ∧ ∀ r ∈ rs, routerResultShape r := by
  obtain ⟨rs, h1, h2, _, h4⟩ :=
    claim_C10_router_execute_contract ⟨fun _ _ _ => .ok jnull⟩
      [jobj [("name", jstr "nosuch"), ("method", jstr "m"), ("args", jobj [])],
       jobj []] (by decide)
  exact ⟨rs, h1, h2, h4⟩

/-! ## Claim C9 — idempotent summary upsert -/

theorem dropWhile_all_false {p : Char → Bool} :
    ∀ l : List Char, (∀ c ∈ l, p c = false) → l.dropWhile p = l
  | [], _ => rfl
  | c :: cs, h => by
    have hc : p c = false := h c (by simp)
    simp [List.dropWhile, hc]

theorem pyStrip_eq_self {s : String} (h : ∀ c ∈ s.data, pyWs c = false) :
    pyStrip s = s := by
  have h1 : s.data.dropWhile pyWs = s.data := dropWhile_all_false _ h
  have h2 : (s.data.reverse).dropWhile pyWs = s.data.reverse :=
    dropWhile_all_false _ (fun c hc => h c (List.mem_reverse.mp hc))
  simp only [pyStrip, h1, h2, List.reverse_reverse]

theorem pyStrip_ne_empty {s : String} (c : Char) (hc : c ∈ s.data)
    (hw : pyWs c = false) : pyStrip s ≠ "" := by
  intro h
  have hdata : (((s.data.dropWhile pyWs).reverse).dropWhile pyWs).reverse = [] :=
    congrArg String.data h
  rw [List.reverse_eq_nil_iff, List.dropWhile_eq_nil_iff] at hdata
  have hsplit := List.takeWhile_append_dropWhile (p := pyWs) (l := s.data)
  rw [← hsplit] at hc
  rcases List.mem_append.mp hc with hmem | hmem
  · exact absurd (List.mem_takeWhile_imp hmem) (by simp [hw])
  · exact absurd (hdata c (List.mem_reverse.mpr hmem)) (by simp [hw])

theorem shaBlock_length {hs : List Nat} (b : List Nat) (h : hs.length = 8) :
    (shaBlock hs b).length = 8 := by
  rcases hs with _ | ⟨a0, _ | ⟨a1, _ | ⟨a2, _ | ⟨a3, _ | ⟨a4, _ | ⟨a5, _ |
    ⟨a6, _ | ⟨a7, _ | ⟨a8, t⟩⟩⟩⟩⟩⟩⟩⟩⟩ <;> simp_all [shaBlock]

theorem foldl_shaBlock_length :
    ∀ (bs : List (List Nat)) (hs : List Nat), hs.length = 8 →
      (bs.foldl shaBlock hs).length = 8
  | [], hs, h => h
  | b :: bs, hs, h =>
    foldl_shaBlock_length bs (shaBlock hs b) (shaBlock_length b h)

theorem sha256Words_length (msg : List Nat) : (sha256Words msg).length = 8 :=
  foldl_shaBlock_length _ _ rfl

theorem hex32_length (n : Nat) : (hex32 n).length = 8 := by
  simp [hex32]

theorem sum_map_eight : ∀ l : List Nat, (l.map (fun _ => (8 : Nat))).sum = 8 * l.length
  | [] => rfl
  | x :: xs => by
    simp only [List.map_cons, List.sum_cons, sum_map_eight xs, List.length_cons]
    ring

theorem sha256hex_data_length (s : String) : (sha256hex s).data.length = 64 := by
  show (((sha256Words (utf8 s)).map hex32).flatten).length = 64
  rw [List.length_flatten, List.map_map]
  have heq : ((sha256Words (utf8 s)).map (List.length ∘ hex32)) =
      (sha256Words (utf8 s)).map (fun _ => 8) := by
    apply List.map_congr_left
    intro x _
    exact hex32_length x
  rw [heq, sum_map_eight, sha256Words_length]

theorem sha256hex_chars {s : String} {c : Char} (hc : c ∈ (sha256hex s).data) :
    pyWs c = false := by
  have : c ∈ ((sha256Words (utf8 s)).map hex32).flatten := hc
  rw [List.mem_flatten] at this
  obtain ⟨l, hl, hcl⟩ := this
  rw [List.mem_map] at hl
  obtain ⟨w, _, rfl⟩ := hl
  simp only [hex32, List.mem_map, List.mem_range] at hcl
  obtain ⟨i, _, rfl⟩ := hcl
  have hlt : (w >>> (4 * (7 - i))) % 16 < 16 := Nat.mod_lt _ (by norm_num)
  revert hlt
  generalize (w >>> (4 * (7 - i))) % 16 = k
  revert k
  decide

/-- The `(source_id, chunk_id)` key of the deterministic summary chunk
for the given finalize inputs (spec section 4.2 step 7). -/
def summaryKey (sessionId today task outputPrefix : String) : String × String :=
  ("task_summaries",
    pyTake (sha256hex (sessionId ++ "|" ++ today ++ "|" ++ task ++ "|" ++
      outputPrefix)) 24)

/-- The stored text under a key in the chunk table. -/
def ragTextAt (store : RagStore) (key : String × String) : Option String :=
  (store.find? (fun r => r.1 = key)).map (fun r => r.2.1)

theorem ragUpsertRow_mem (store : RagStore) (key : String × String)
    (t : String) (m : Option String) (ts : Int) :
    (ragUpsertRow store key t m ts).any (fun r => r.1 = key) = true := by
  unfold ragUpsertRow
  split
  · next hany =>
    rw [List.any_eq_true] at hany ⊢
    obtain ⟨r, hr, hkey⟩ := hany
    refine ⟨(key, (t, m, ts)), ?_, by simp⟩
    rw [List.mem_map]
    exact ⟨r, hr, by rw [if_pos (of_decide_eq_true hkey)]⟩
  · rw [List.any_eq_true]
    exact ⟨(key, (t, m, ts)), by simp, by simp⟩

theorem ragUpsertRow_length_of_mem {store : RagStore} {key : String × String}
    (t : String) (m : Option String) (ts : Int)
    (h : store.any (fun r => r.1 = key) = true) :
    (ragUpsertRow store key t m ts).length = store.length := by
  unfold ragUpsertRow
  rw [if_pos h, List.length_map]

theorem ragUpsertRow_textAt (store : RagStore) (key : String × String)
    (t : String) (m : Option String) (ts : Int) :
    ragTextAt (ragUpsertRow store key t m ts) key = some t := by
  unfold ragUpsertRow ragTextAt
  split
  · next hany =>
    induction store with
    | nil => simp at hany
    | cons r rest ih =>
      by_cases hk : r.1 = key
      · simp [List.find?, hk]
      · rw [List.any_eq_true] at hany
        rcases hany with ⟨x, hx, hxk⟩
        rcases List.mem_cons.mp hx with rfl | hx2
        · exact absurd (of_decide_eq_true hxk) hk
        · simp only [List.map_cons, List.find?, if_neg hk]
          rw [decide_eq_false hk]
          exact ih (List.any_eq_true.mpr ⟨x, hx2, hxk⟩)
  · induction store with
    | nil => simp [List.find?]
    | cons r rest ih =>
      next hany =>
      have hk : ¬r.1 = key := by
        intro hk
        exact hany (List.any_eq_true.mpr ⟨r, by simp, by simp [hk]⟩)
      simp only [List.cons_append, List.find?, decide_eq_false hk]
      exact ih (fun hrest => hany (by
        rw [List.any_eq_true] at hrest ⊢
        obtain ⟨x, hx, hxk⟩ := hrest
        exact ⟨x, by simp [hx], hxk⟩))

theorem upsertChunk_ok (store : RagStore) (src cid text : String)
    (meta : List (String × JVal)) (ts : Int)
    (hsrc : pyStrip src ≠ "") (hcid : pyStrip cid ≠ "")
    (htext : pyStrip text ≠ "") :
    upsertChunk store (jstr src) (jstr cid) (jstr text) (jobj meta) ts =
      (jobj [("ok", jbool true), ("source_id", jstr (pyStrip src)),
        ("chunk_id", jstr (pyStrip cid))],
       ragUpsertRow store (pyStrip src, pyStrip cid) text
         (if (jobj meta).truthy then some (jsonDumps (jobj meta)) else none)
         ts) := by
  unfold upsertChunk
  rw [if_neg (not_not_intro
      ⟨rfl, show pyStrip (pyStr (jstr src)) ≠ "" from hsrc⟩),
    if_neg (not_not_intro
      ⟨rfl, show pyStrip (pyStr (jstr cid)) ≠ "" from hcid⟩),
    if_neg (not_not_intro
      ⟨rfl, show pyStrip (pyStr (jstr text)) ≠ "" from htext⟩),
    if_neg (by simp [isObj])]
  rfl

theorem pyJoin_tasks_head (x y : String) (rest : List String) :
    ∃ r, (pyJoin "\n" ("### TASK" :: x :: y :: rest)).data = '#' :: r :=
  ⟨_, rfl⟩

theorem ite_take_head {cond : Prop} [Decidable cond] {s : String} {c : Char}
    {r : List Char} (h : s.data = c :: r) :
    ∃ r2, (if cond then pyTake s 5000 else s).data = c :: r2 := by
  by_cases hc : cond
  · rw [if_pos hc]
    exact ⟨_, by show s.data.take 5000 = _; rw [h]; rfl⟩
  · rw [if_neg hc]
    exact ⟨r, h⟩

theorem pyJoin_TASK_head (x y z w : String) (rest : List String) :
    ∃ r, (pyJoin "\n" ("### TASK" :: x :: y :: z :: w :: rest)).data = '#' :: r :=
  ⟨"## TASK\n".data ++ (pyJoin "\n" (x :: y :: z :: w :: rest)).data, by
    show (("### TASK" ++ "\n") ++ pyJoin "\n" (x :: y :: z :: w :: rest)).data = _
    rw [String.data_append]
    rfl⟩

theorem distill_shape (cond : Prop) [Decidable cond] (x y z w : String)
    (rest : List String) :
    ∃ r, (if cond then
        pyTake (pyJoin "\n" ("### TASK" :: x :: y :: z :: w :: rest)) 5000
      else pyJoin "\n" ("### TASK" :: x :: y :: z :: w :: rest)).data =
      '#' :: r := by
  obtain ⟨r, hr⟩ := pyJoin_TASK_head x y z w rest
  exact ite_take_head hr

theorem distill_data_head (t o : String) :
    ∃ rest, (distill t o).data = '#' :: rest := by
  simp only [distill]
  split <;> split <;> exact distill_shape _ _ _ _ _ _

theorem distill_strip_ne (t o : String) : pyStrip (distill t o) ≠ "" := by
  obtain ⟨r, hr⟩ := distill_data_head t o
  exact pyStrip_ne_empty '#' (by rw [hr]; simp) (by decide)

/-- The deterministic chunk id of `ContextPolicy.finalize_task`:
`SHA-256(session_id|date|task|output[:2000])[:24]`. -/
def chunkIdOf (sid today : String) (task output : JVal) : String :=
  pyTake (sha256hex (sid ++ "|" ++ today ++ "|" ++ pyStrip (pyStr task) ++ "|" ++
    pyTake (pyStr output) 2000)) 24

theorem chunkIdOf_no_ws {sid today : String} {task output : JVal} {c : Char}
    (hc : c ∈ (chunkIdOf sid today task output).data) : pyWs c = false :=
  sha256hex_chars (List.mem_of_mem_take hc)

theorem chunkIdOf_strip (sid today : String) (task output : JVal) :
    pyStrip (chunkIdOf sid today task output) = chunkIdOf sid today task output :=
  pyStrip_eq_self (fun _ hc => chunkIdOf_no_ws hc)

theorem chunkIdOf_strip_ne (sid today : String) (task output : JVal) :
    pyStrip (chunkIdOf sid today task output) ≠ "" := by
  have hdata : (chunkIdOf sid today task output).data =
      (sha256hex (sid ++ "|" ++ today ++ "|" ++ pyStrip (pyStr task) ++ "|" ++
        pyTake (pyStr output) 2000)).data.take 24 := rfl
  have hlen : (chunkIdOf sid today task output).data.length = 24 := by
    rw [hdata, List.length_take, sha256hex_data_length]
    decide
  obtain ⟨c, hc⟩ := List.exists_mem_of_length_pos (l := (chunkIdOf sid today task output).data)
    (by rw [hlen]; norm_num)
  exact pyStrip_ne_empty c hc (chunkIdOf_no_ws hc)

/-- The summary metadata dictionary of `finalize_task`. -/
def summaryMeta (sid today : String) (status : JVal) (ts : Int) : JVal :=
  jobj [("session_id", jstr sid), ("status", jstr (pyStrip (pyStr status))),
    ("date", jstr today), ("ts", jnum ts), ("kind", jstr "task_summary")]

theorem finalizeTask_ok (mem : List Turn) (store : RagStore)
    (task output status : JVal) (sid today : String) (ts : Int)
    (ht1 : task.isStr = true) (ht2 : pyStrip (pyStr task) ≠ "")
    (ho : output.isStr = true)
    (hs1 : status.isStr = true) (hs2 : pyStrip (pyStr status) ≠ "") :
    finalizeTask mem store task output status sid today ts =
      (jobj [("ok", jbool true), ("error", jnull), ("details", jnull),
        ("summary_chunk", jobj [("source_id", jstr "task_summaries"),
          ("chunk_id", jstr (chunkIdOf sid today task output))])],
       mem ++ [("assistant", pyStr output, sid, pyStrip (pyStr status))],
       ragUpsertRow store ("task_summaries", chunkIdOf sid today task output)
         (distill (pyStrip (pyStr task)) (pyStr output))
         (some (jsonDumps (summaryMeta sid today status ts))) ts) := by
  unfold finalizeTask
  rw [if_neg (not_not_intro ⟨ht1, ht2⟩)]
  rw [if_neg (not_not_intro ho)]
  rw [if_neg (not_not_intro ⟨hs1, hs2⟩)]
  have hup := upsertChunk_ok store "task_summaries"
    (chunkIdOf sid today task output)
    (distill (pyStrip (pyStr task)) (pyStr output))
    [("session_id", jstr sid), ("status", jstr (pyStrip (pyStr status))),
     ("date", jstr today), ("ts", jnum ts), ("kind", jstr "task_summary")] ts
    (by decide) (chunkIdOf_strip_ne sid today task output)
    (distill_strip_ne _ _)
  simp only [] at hup ⊢
  rw [show pyTake (sha256hex (sid ++ "|" ++ today ++ "|" ++ pyStrip (pyStr task) ++
      "|" ++ pyTake (pyStr output) 2000)) 24 = chunkIdOf sid today task output
    from rfl]
  rw [hup]
  simp only [look, List.lookup, truthy]
  rw [if_neg (by simp)]
  rw [chunkIdOf_strip]
  rfl

/-- C9: finalizing the same `(session_id, date, task, output[:2000])`
twice upserts the summary chunk under the same deterministic chunk id
`SHA-256(session_id|date|task|output[:2000])[:24]` in source
`task_summaries`; the second finalize replaces the chunk row in place —
the stored text becomes the second distillate — and the chunk count does
not grow. -/
theorem claim_C9_finalize_idempotent (mem : List Turn) (store : RagStore)
    (task out1 out2 status : JVal) (sid today : String) (ts1 ts2 : Int)
    (ht1 : task.isStr = true) (ht2 : pyStrip (pyStr task) ≠ "")
    (ho1 : out1.isStr = true) (ho2 : out2.isStr = true)
    (hs1 : status.isStr = true) (hs2 : pyStrip (pyStr status) ≠ "")
    (hpre : pyTake (pyStr out1) 2000 = pyTake (pyStr out2) 2000) :
    ∀ r1 mem1 store1 r2 mem2 store2,
      finalizeTask mem store task out1 status sid today ts1 =
        (r1, mem1, store1) →
      finalizeTask mem1 store1 task out2 status sid today ts2 =
        (r2, mem2, store2) →
      r1.look "ok" = jbool true ∧ r2.look "ok" = jbool true ∧
      r1.look "summary_chunk" =
        jobj [("source_id", jstr "task_summaries"),
          ("chunk_id", jstr (chunkIdOf sid today task out1))] ∧
      r2.look "summary_chunk" = r1.look "summary_chunk" ∧
      store2.length = store1.length ∧
      ragTextAt store2 ("task_summaries", chunkIdOf sid today task out1) =
        some (distill (pyStrip (pyStr task)) (pyStr out2)) := by
  intro r1 mem1 store1 r2 mem2 store2 h1 h2
  have hid : chunkIdOf sid today task out2 = chunkIdOf sid today task out1 := by
    unfold chunkIdOf
    rw [hpre]
  rw [finalizeTask_ok mem store task out1 status sid today ts1
    ht1 ht2 ho1 hs1 hs2] at h1
  rw [finalizeTask_ok mem1 store1 task out2 status sid today ts2
    ht1 ht2 ho2 hs1 hs2, hid] at h2
  simp only [Prod.mk.injEq] at h1 h2
  obtain ⟨hr1, hm1, hs1x⟩ := h1
  obtain ⟨hr2, hm2, hs2x⟩ := h2
  subst hr1 hm1 hs1x hr2 hm2 hs2x
  refine ⟨rfl, rfl, rfl, rfl, ?_, ?_⟩
  · exact ragUpsertRow_length_of_mem _ _ _ (ragUpsertRow_mem _ _ _ _ _)
  · exact ragUpsertRow_textAt _ _ _ _ _

/-- C9 witness: finalizing the same concrete inputs twice leaves the
chunk count unchanged. -/
theorem claim_C9_witness :
    pyStrip (pyStr (jstr "t")) ≠ "" ∧
    (finalizeTask
        (finalizeTask [] [] (jstr "t") (jstr "out") (jstr "ok") "s"
          "2026-10-12" 1).2.1
        (finalizeTask [] [] (jstr "t") (jstr "out") (jstr "ok") "s"
          "2026-10-12" 1).2.2
        (jstr "t") (jstr "out") (jstr "ok") "s" "2026-10-12" 2).2.2.length =
      (finalizeTask [] [] (jstr "t") (jstr "out") (jstr "ok") "s"
        "2026-10-12" 1).2.2.length :=
  ⟨by decide,
    (claim_C9_finalize_idempotent [] [] (jstr "t") (jstr "out") (jstr "out")
      (jstr "ok") "s" "2026-10-12" 1 2 rfl (by decide) rfl rfl rfl (by decide)
      rfl _ _ _ _ _ _ rfl rfl).2.2.2.2.1⟩

/-! ## Claim C2 — normalizer edge validation -/

/-- A full-plan input whose two steps form a dependency cycle
(`a → b → a`). -/
def c2input : JVal :=
  jobj [("plan_id", jstr "p"), ("created_ts", jnum 1),
    ("steps", jarr [
      jobj [("id", jstr "a"), ("title", jstr "t"), ("type", jstr "note"),
        ("depends_on", jarr [jstr "b"]), ("status", jstr "pending")],
      jobj [("id", jstr "b"), ("title", jstr "t"), ("type", jstr "note"),
        ("depends_on", jarr [jstr "a"]), ("status", jstr "pending")]])]

/-- C2 counterexample: `normalize_plan` accepts the cyclic input with
`ok=true` and preserves both cycle edges verbatim — cyclic dependency
structures are not rejected, and the edges are never checked against the
step-id set. -/
theorem claim_C2_counterexample :
    (normalizePlan c2input "" 0).look "ok" = jbool true ∧
    (match ((normalizePlan c2input "" 0).look "plan").look "steps" with
     | jarr steps => steps.map (fun s => (s.look "id", s.look "depends_on"))
     | _ => []) =
      [(jstr "a", jarr [jstr "b"]), (jstr "b", jarr [jstr "a"])] := by
  exact ⟨rfl, rfl⟩

/-- A raw full-plan step with an explicit id and dependency list, as the
amended-claim input family. -/
def mkStepIn (id : String) (deps : List String) : JVal :=
  jobj [("id", jstr id), ("title", jstr "t"), ("type", jstr "note"),
    ("depends_on", jarr (deps.map jstr)), ("status", jstr "pending")]

/-- The normalized form `_normalize_full_plan` produces for
`mkStepIn id deps`. -/
def mkStepOut (id : String) (deps : List String) : JVal :=
  jobj [("id", jstr id), ("title", jstr "t"), ("type", jstr "note"),
    ("depends_on", jarr (deps.map jstr)), ("tool", jnull), ("prompt", jnull),
    ("status", jstr "pending"), ("result", jnull)]

theorem truthy_jstr {s : String} (h : s ≠ "") : (jstr s).truthy = true := by
  simp [truthy, h]

theorem epure_bind {α β : Type} (a : α) (f : α → Except PyExc β) :
    ((pure a : Except PyExc α) >>= f) = f a := rfl

theorem deps_norm (l : List String) :
    ((l.map jstr).filter (fun d => match d with
      | jstr _ => true | jnum _ => true | jbool _ => true | _ => false)).map
      (fun d => jstr (pyStr d)) = l.map jstr := by
  induction l with
  | nil => rfl
  | cons d ds ih =>
    simp only [List.map_cons]
    rw [List.filter_cons_of_pos (by rfl), List.map_cons, ih]
    rfl

theorem normFullSteps_explicit (pid : String) :
    ∀ (specs : List (String × List String)) (i : Nat) (seen : List String),
      (∀ p ∈ specs, p.1 ≠ "") →
      (∀ p ∈ specs, p.1 ∉ seen) →
      (specs.map Prod.fst).Nodup →
      normFullSteps pid i seen (specs.map (fun p => mkStepIn p.1 p.2)) =
        .ok (specs.map (fun p => mkStepOut p.1 p.2))
  | [], _, _, _, _, _ => rfl
  | (id, deps) :: rest, i, seen, hne, hseen, hnodup => by
    have hid : id ≠ "" := hne (id, deps) (by simp)
    have hidseen : id ∉ seen := hseen (id, deps) (by simp)
    have hrest := normFullSteps_explicit pid rest (i + 1) (id :: seen)
      (fun p hp => hne p (by simp [hp]))
      (fun p hp => by
        simp only [List.mem_cons]
        push_neg
        refine ⟨?_, hseen p (by simp [hp])⟩
        intro hpid
        rw [List.map_cons, List.nodup_cons] at hnodup
        exact hnodup.1 (List.mem_map.mpr ⟨p, hp, hpid⟩))
      (by rw [List.map_cons, List.nodup_cons] at hnodup; exact hnodup.2)
    have hnd : normDeps (jarr (deps.map jstr)) = deps.map jstr := by
      cases deps with
      | nil => rfl
      | cons d ds =>
        show ((((d :: ds).map jstr).filter _).map _) = (d :: ds).map jstr
        exact deps_norm (d :: ds)
    simp only [List.map_cons, normFullSteps,
      show ((mkStepIn id deps).isObj) = true from rfl,
      show JVal.look (mkStepIn id deps) "id" = jstr id from rfl,
      show JVal.look (mkStepIn id deps) "depends_on" =
        jarr (deps.map jstr) from rfl,
      truthy_jstr hid, not_true, Bool.not_true, Bool.false_eq_true, if_false,
      if_true, ite_true, ite_false, epure_bind,
      show pyStr (jstr id) = id from rfl, if_neg hidseen, hnd, hrest, ebind_ok]
    rfl

theorem normDeps_map (l : List String) :
    normDeps (jarr (l.map jstr)) = l.map jstr := by
  cases l with
  | nil => rfl
  | cons d ds =>
    show (((d :: ds).map jstr).filter _).map _ = (d :: ds).map jstr
    exact deps_norm (d :: ds)

theorem normalizePlan_wrap (pid : String) (hpid : pid ≠ "")
    (stepsIn stepsOut : List JVal) (hlen : stepsIn.length ≤ 10000)
    (hns : normFullSteps pid 0 [] stepsIn = Except.ok stepsOut) :
    normalizePlan
      (jobj [("plan_id", jstr pid), ("created_ts", jnum 1),
        ("steps", jarr stepsIn)]) "" 0 =
    jobj [("ok", jbool true),
      ("plan", jobj [("plan_id", jstr pid), ("goal", jstr "task"),
        ("created_ts", jnum 1), ("status", jstr "new"),
        ("steps", jarr stepsOut),
        ("checkpoints", jarr [])]),
      ("error", jnull), ("details", jnull)] := by
  simp only [normalizePlan, normalizeFullPlan,
    show (List.lookup "steps"
      [("plan_id", jstr pid), ("created_ts", jnum 1),
       ("steps", jarr stepsIn)]).isSome = true from rfl,
    show JVal.look (jobj [("plan_id", jstr pid), ("created_ts", jnum 1),
      ("steps", jarr stepsIn)]) "plan_id" = jstr pid from rfl,
    show JVal.look (jobj [("plan_id", jstr pid), ("created_ts", jnum 1),
      ("steps", jarr stepsIn)]) "goal" = jnull from rfl,
    show JVal.look (jobj [("plan_id", jstr pid), ("created_ts", jnum 1),
      ("steps", jarr stepsIn)]) "created_ts" = jnum 1 from rfl,
    show JVal.lookD (jobj [("plan_id", jstr pid), ("created_ts", jnum 1),
      ("steps", jarr stepsIn)]) "status" jnull = jnull from rfl,
    show JVal.lookD (jobj [("plan_id", jstr pid), ("created_ts", jnum 1),
      ("steps", jarr stepsIn)]) "steps" (jarr []) = jarr stepsIn from rfl,
    show JVal.look (jobj [("plan_id", jstr pid), ("created_ts", jnum 1),
      ("steps", jarr stepsIn)]) "checkpoints" = jnull from rfl,
    truthy_jstr hpid, if_true, ite_true, ite_false, epure_bind, ebind_ok,
    if_neg (show ¬stepsIn.length > 10000 by omega),
    show pyStr (jstr pid) = pid from rfl,
    show ((jnum 1).truthy) = true from rfl,
    show pyFloat (jnum 1) = Except.ok (1 : Int) from rfl,
    show (JVal.truthy jnull) = false from rfl,
    show (JVal.isArr jnull) = false from rfl,
    Bool.false_eq_true, if_false,
    if_neg (show ¬("" ≠ "") by simp),
    hns]
  rfl

theorem normFullSteps_dup (pid x : String) (hx : x ≠ "") (d1 d2 : List String) :
    normFullSteps pid 0 [] [mkStepIn x d1, mkStepIn x d2] =
      Except.ok [mkStepOut x d1, mkStepOut (shaId (x ++ "1")) d2] := by
  simp only [normFullSteps,
    show (mkStepIn x d1).isObj = true from rfl,
    show (mkStepIn x d2).isObj = true from rfl,
    show JVal.look (mkStepIn x d1) "id" = jstr x from rfl,
    show JVal.look (mkStepIn x d2) "id" = jstr x from rfl,
    show JVal.look (mkStepIn x d1) "depends_on" =
      jarr (d1.map jstr) from rfl,
    show JVal.look (mkStepIn x d2) "depends_on" =
      jarr (d2.map jstr) from rfl,
    truthy_jstr hx, not_true, Bool.not_true, Bool.false_eq_true, if_false,
    if_true, ite_true, ite_false, epure_bind,
    show pyStr (jstr x) = x from rfl,
    if_neg (List.not_mem_nil x),
    if_pos (List.mem_singleton.mpr rfl : x ∈ [x]),
    normDeps_map, ebind_ok]
  rfl

/-- C2 amended: `normalize_plan` validates neither the existence of
`depends_on` targets nor acyclicity — for every step list with distinct
nonempty explicit ids and arbitrary dependency edges (dangling or cyclic),
it returns `ok=true`, preserves the ids, and passes the `depends_on`
lists through verbatim as strings — and a step id duplicating an earlier
one is rewritten at normalize time by rehashing to
`_sha_id(id + str(index))`, with its dependency edges still passed
through unchecked. -/
theorem claim_C2_amended_edges_unchecked :
    (∀ (pid : String), pid ≠ "" →
      ∀ (specs : List (String × List String)), specs.length ≤ 10000 →
      (∀ p ∈ specs, p.1 ≠ "") → (specs.map Prod.fst).Nodup →
      normalizePlan
        (jobj [("plan_id", jstr pid), ("created_ts", jnum 1),
          ("steps", jarr (specs.map (fun p => mkStepIn p.1 p.2)))]) "" 0 =
      jobj [("ok", jbool true),
        ("plan", jobj [("plan_id", jstr pid), ("goal", jstr "task"),
          ("created_ts", jnum 1), ("status", jstr "new"),
          ("steps", jarr (specs.map (fun p => mkStepOut p.1 p.2))),
          ("checkpoints", jarr [])]),
        ("error", jnull), ("details", jnull)]) ∧
    (∀ (pid x : String), pid ≠ "" → x ≠ "" → ∀ (d1 d2 : List String),
      normalizePlan
        (jobj [("plan_id", jstr pid), ("created_ts", jnum 1),
          ("steps", jarr [mkStepIn x d1, mkStepIn x d2])]) "" 0 =
      jobj [("ok", jbool true),
        ("plan", jobj [("plan_id", jstr pid), ("goal", jstr "task"),
          ("created_ts", jnum 1), ("status", jstr "new"),
          ("steps", jarr [mkStepOut x d1,
            mkStepOut (shaId (x ++ "1")) d2]),
          ("checkpoints", jarr [])]),
        ("error", jnull), ("details", jnull)]) :=
  ⟨fun pid hpid specs hlen hids hnodup =>
    normalizePlan_wrap pid hpid _ _
      (by rw [List.length_map]; exact hlen)
      (normFullSteps_explicit pid specs 0 [] hids (by simp) hnodup),
   fun pid x hpid hx d1 d2 =>
    normalizePlan_wrap pid hpid _ _
      (by simp only [List.length_cons, List.length_nil]; omega)
      (normFullSteps_dup pid x hx d1 d2)⟩

/-- C2 amended witness: the amended statement at the concrete cyclic
two-step plan (ids `a` and `b`, edges `a → b → a`) and at a concrete
duplicate-id plan (both steps named `a`: the second id is rewritten to
the rehash of `"a1"`, its dangling edge kept verbatim). -/
theorem claim_C2_amended_witness :
    normalizePlan
      (jobj [("plan_id", jstr "p"), ("created_ts", jnum 1),
        ("steps", jarr ([("a", ["b"]), ("b", ["a"])].map
          (fun p => mkStepIn p.1 p.2)))]) "" 0 =
    jobj [("ok", jbool true),
      ("plan", jobj [("plan_id", jstr "p"), ("goal", jstr "task"),
        ("created_ts", jnum 1), ("status", jstr "new"),
        ("steps", jarr ([("a", ["b"]), ("b", ["a"])].map
          (fun p => mkStepOut p.1 p.2))),
        ("checkpoints", jarr [])]),
      ("error", jnull), ("details", jnull)] ∧
    normalizePlan
      (jobj [("plan_id", jstr "p"), ("created_ts", jnum 1),
        ("steps", jarr [mkStepIn "a" ["b"], mkStepIn "a" []])]) "" 0 =
    jobj [("ok", jbool true),
      ("plan", jobj [("plan_id", jstr "p"), ("goal", jstr "task"),
        ("created_ts", jnum 1), ("status", jstr "new"),
        ("steps", jarr [mkStepOut "a" ["b"],
          mkStepOut (shaId "a1") []]),
        ("checkpoints", jarr [])]),
      ("error", jnull), ("details", jnull)] :=
  ⟨claim_C2_amended_edges_unchecked.1 "p" (by decide)
    [("a", ["b"]), ("b", ["a"])] (by decide) (by decide) (by decide),
   claim_C2_amended_edges_unchecked.2 "p" "a" (by decide) (by decide)
    ["b"] []⟩

/-! ## Claim C6 — the ready-batch contract -/

theorem pyGet_obj {s : JVal} (k : String) (h : s.isObj = true) :
    s.pyGet k = .ok (s.look k) := by
  cases s <;> simp_all [isObj, pyGet, look]

/-- The id set of the done steps, in step order (the claim wording of
the readiness condition). -/
def doneIdSet (steps : List JVal) : List JVal :=
  (steps.filter (fun s => s.look "status" == jstr "done")).map
    (fun s => s.look "id")

/-- The dependency list the scheduler iterates for a step. -/
def depsOf (s : JVal) : List JVal :=
  match s.look "depends_on" with
  | jarr ds => ds
  | _ => []

/-- The claim-side readiness predicate: pending, of type tool, and every
dependency id among the done ids. -/
def isReadyStep (done : List JVal) (s : JVal) : Bool :=
  s.look "status" == jstr "pending" && s.look "type" == jstr "tool" &&
    (depsOf s).all (fun d => done.contains d)

/-- The call the scheduler builds for a ready step, carrying the step id
as the `_step_id` correlator. -/
def callOf (s : JVal) : JVal :=
  let tool := if (s.look "tool").truthy then s.look "tool" else jobj []
  jobj [("name", tool.look "name"), ("method", tool.look "method"),
    ("args", if (tool.look "args").truthy then tool.look "args" else jobj []),
    ("_step_id", s.look "id")]

theorem collectDoneIds_eq :
    ∀ steps : List JVal,
      (∀ s ∈ steps, s.isObj = true) →
      (∀ s ∈ steps, (s.look "id").hashable = true) →
      collectDoneIds steps = .ok (doneIdSet steps)
  | [], _, _ => rfl
  | s :: rest, hobj, hid => by
    have hrest := collectDoneIds_eq rest (fun x hx => hobj x (by simp [hx]))
      (fun x hx => hid x (by simp [hx]))
    simp only [collectDoneIds, pyGet_obj _ (hobj s (by simp)), ebind_ok,
      hid s (by simp), Bool.not_true, Bool.false_eq_true, if_false, hrest,
      ebind_ok]
    by_cases hst : s.look "status" = jstr "done"
    · rw [if_pos hst]
      unfold doneIdSet
      rw [List.filter_cons_of_pos (by simp [hst]), List.map_cons]
      rfl
    · rw [if_neg hst]
      unfold doneIdSet
      rw [List.filter_cons_of_neg (by simp [hst])]

theorem allDepsDone_eq (done : List JVal) :
    ∀ ds : List JVal, (∀ d ∈ ds, d.hashable = true) →
      allDepsDone done ds = .ok (ds.all (fun d => done.contains d))
  | [], _ => rfl
  | d :: ds, h => by
    simp only [allDepsDone]
    rw [show setMem done d = .ok (done.contains d) from by
      unfold setMem; rw [if_pos (h d (by simp))], ebind_ok]
    by_cases hm : done.contains d = true
    · rw [if_pos hm, allDepsDone_eq done ds (fun x hx => h x (by simp [hx]))]
      rw [List.all_cons, hm, Bool.true_and]
    · rw [if_neg hm, List.all_cons, eq_false_of_ne_true hm, Bool.false_and]
      rfl

theorem pendingToolSteps_eq (done : List JVal) :
    ∀ steps : List JVal,
      (∀ s ∈ steps, s.isObj = true) →
      (∀ s ∈ steps, (s.look "depends_on").truthy = true →
        ∃ ds, s.look "depends_on" = jarr ds) →
      (∀ s ∈ steps, ∀ d ∈ depsOf s, d.hashable = true) →
      pendingToolSteps done steps = .ok (steps.filter (isReadyStep done))
  | [], _, _, _ => rfl
  | s :: rest, hobj, hdeps, hdh => by
    have hrest := pendingToolSteps_eq done rest
      (fun x hx => hobj x (by simp [hx]))
      (fun x hx => hdeps x (by simp [hx]))
      (fun x hx => hdh x (by simp [hx]))
    have hiter : pyIter (if (s.look "depends_on").truthy then
        s.look "depends_on" else jarr []) = .ok (depsOf s) := by
      by_cases ht : (s.look "depends_on").truthy = true
      · obtain ⟨ds, hds⟩ := hdeps s (by simp) ht
        rw [if_pos ht, hds]
        simp [pyIter, depsOf, hds]
      · rw [if_neg ht]
        unfold depsOf
        rcases hv : s.look "depends_on" with _ | b | n | str | xs | kvs <;>
          simp_all [pyIter, truthy]
    simp only [pendingToolSteps, pyGet_obj _ (hobj s (by simp)), ebind_ok,
      hiter, hrest, allDepsDone_eq done (depsOf s) (hdh s (by simp)), ebind_ok]
    by_cases hpend : s.look "status" = jstr "pending"
    case neg =>
      rw [if_pos hpend]
      rw [List.filter_cons_of_neg (by simp [isReadyStep, hpend])]
    case pos =>
      rw [if_neg (not_not_intro hpend)]
      by_cases htool : s.look "type" = jstr "tool"
      case neg =>
        rw [if_pos htool]
        rw [List.filter_cons_of_neg (by simp [isReadyStep, htool])]
      case pos =>
        rw [if_neg (not_not_intro htool)]
        by_cases hall : (depsOf s).all (fun d => done.contains d) = true
        · rw [if_pos hall]
          rw [List.filter_cons_of_pos
            (by unfold isReadyStep; rw [hpend, htool, hall]; rfl)]
          rfl
        · rw [if_neg hall]
          rw [List.filter_cons_of_neg
            (by unfold isReadyStep; rw [hpend, htool]; simpa using hall)]

theorem mkToolCall_eq {s : JVal} (hs : s.isObj = true)
    (ht : ¬(s.look "tool").truthy = true ∨ (s.look "tool").isObj = true) :
    mkToolCall s = .ok (callOf s) := by
  have htool : (if (s.look "tool").truthy then s.look "tool"
      else jobj []).isObj = true := by
    rcases ht with ht | ht
    · rw [if_neg ht]; rfl
    · by_cases h2 : (s.look "tool").truthy = true
      · rw [if_pos h2]; exact ht
      · rw [if_neg h2]; rfl
  simp only [mkToolCall, pyGet_obj _ hs, ebind_ok, pyGet_obj _ htool, ebind_ok,
    callOf]
  rfl

theorem mapM_ok {α β : Type} (f : α → Except PyExc β) (g : α → β) :
    ∀ l : List α, (∀ x ∈ l, f x = .ok (g x)) → l.mapM f = .ok (l.map g)
  | [], _ => rfl
  | x :: xs, h => by
    rw [List.mapM_cons, h x (by simp), ebind_ok,
      mapM_ok f g xs (fun y hy => h y (by simp [hy])), ebind_ok]
    rfl

/-- C6: for every structured plan (each step a dictionary with hashable
id, list-or-falsy `depends_on` of hashable entries and dictionary-or-falsy
`tool`) and every batch size between 1 and 200, `get_ready_tool_batch`
returns `ok=true` with exactly the first `batch_size` steps, in plan
order, that are pending tool steps whose dependencies all reference
done-step ids; each call carries the step id as `_step_id`, and
`remaining` counts the ready steps beyond the batch. -/
theorem claim_C6_ready_batch (kvs : List (String × JVal)) (steps : List JVal)
    (bs : Int)
    (hsteps : kvs.lookup "steps" = some (jarr steps))
    (hbs1 : 1 ≤ bs) (hbs2 : bs ≤ 200)
    (hobj : ∀ s ∈ steps, s.isObj = true)
    (hid : ∀ s ∈ steps, (s.look "id").hashable = true)
    (hdeps : ∀ s ∈ steps, (s.look "depends_on").truthy = true →
      ∃ ds, s.look "depends_on" = jarr ds)
    (hdhash : ∀ s ∈ steps, ∀ d ∈ depsOf s, d.hashable = true)
    (htool : ∀ s ∈ steps, ¬(s.look "tool").truthy = true ∨
      (s.look "tool").isObj = true) :
    getReadyToolBatch (jobj kvs) bs =
      jobj [("ok", jbool true),
        ("tool_calls", jarr
          (((steps.filter (isReadyStep (doneIdSet steps))).take bs.toNat).map
            callOf)),
        ("remaining", jnum (max 0
          (((steps.filter (isReadyStep (doneIdSet steps))).length : Int) -
            (((steps.filter (isReadyStep (doneIdSet steps))).take
              bs.toNat).map callOf).length)))] := by
  have hpend := pendingToolSteps_eq (doneIdSet steps) steps hobj hdeps hdhash
  have hcall : ∀ s ∈ (steps.filter (isReadyStep (doneIdSet steps))).take
      bs.toNat, mkToolCall s = .ok (callOf s) := by
    intro s hsmem
    have hm : s ∈ steps := List.mem_of_mem_filter (List.mem_of_mem_take hsmem)
    exact mkToolCall_eq (hobj s hm) (htool s hm)
  simp only [getReadyToolBatch, hsteps, lookD, Option.isNone_some,
    Bool.false_eq_true, if_false, Option.getD_some,
    if_neg (show ¬(bs ≤ 0 ∨ bs > 200) by omega),
    collectDoneIds_eq steps hobj hid, ebind_ok, hpend, ebind_ok,
    mapM_ok mkToolCall callOf _ hcall, ebind_ok]
  rfl

/-- C6 witness: the contract at a concrete three-step plan — a done
step, a ready tool step depending on it, and a blocked tool step whose
dependency is still pending — with batch size 1. -/
theorem claim_C6_witness :
    getReadyToolBatch (jobj [("steps", jarr [
      jobj [("id", jstr "a"), ("type", jstr "note"), ("status", jstr "done")],
      jobj [("id", jstr "b"), ("type", jstr "tool"), ("status", jstr "pending"),
        ("depends_on", jarr [jstr "a"]),
        ("tool", jobj [("name", jstr "ping"), ("method", jstr "get"),
          ("args", jobj [])])],
      jobj [("id", jstr "c"), ("type", jstr "tool"), ("status", jstr "pending"),
        ("depends_on", jarr [jstr "b"]),
        ("tool", jobj [("name", jstr "ping"), ("method", jstr "get"),
          ("args", jobj [])])]])]) 1 =
      jobj [("ok", jbool true),
        ("tool_calls", jarr [jobj [("name", jstr "ping"),
          ("method", jstr "get"), ("args", jobj []),
          ("_step_id", jstr "b")]]),
        ("remaining", jnum 0)] := by
  have h := claim_C6_ready_batch [("steps", jarr [
      jobj [("id", jstr "a"), ("type", jstr "note"), ("status", jstr "done")],
      jobj [("id", jstr "b"), ("type", jstr "tool"), ("status", jstr "pending"),
        ("depends_on", jarr [jstr "a"]),
        ("tool", jobj [("name", jstr "ping"), ("method", jstr "get"),
          ("args", jobj [])])],
      jobj [("id", jstr "c"), ("type", jstr "tool"), ("status", jstr "pending"),
        ("depends_on", jarr [jstr "b"]),
        ("tool", jobj [("name", jstr "ping"), ("method", jstr "get"),
          ("args", jobj [])])]])] _ 1 rfl (by decide) (by decide)
    (by decide) (by decide)
    (by intro s hs htr
        simp only [List.mem_cons, List.not_mem_nil, or_false] at hs
        rcases hs with rfl | rfl | rfl
        · exact absurd htr (by decide)
        · exact ⟨[jstr "a"], rfl⟩
        · exact ⟨[jstr "b"], rfl⟩)
    (by decide) (by decide)
  rw [h]
  rfl

/-! ### C1: apply_tool_results marks steps from their attached results -/

theorem setKey_lookup_self (kvs : List (String × JVal)) (k : String) (v : JVal) :
    (setKey kvs k v).lookup k = some v := by
  induction kvs with
  | nil => simp [setKey, List.lookup]
  | cons p rest ih =>
    obtain ⟨a, b⟩ := p
    by_cases h : a = k
    · simp [setKey, h, List.lookup]
    · rw [show setKey ((a, b) :: rest) k v = (a, b) :: setKey rest k v from
        by simp [setKey, h]]
      simp only [List.lookup, beq_false_of_ne (fun he : k = a => h he.symm)]
      exact ih

theorem setKey_lookup_ne (kvs : List (String × JVal)) (k k2 : String) (v : JVal)
    (h : k2 ≠ k) : (setKey kvs k v).lookup k2 = kvs.lookup k2 := by
  induction kvs with
  | nil => simp [setKey, List.lookup, beq_false_of_ne h]
  | cons p rest ih =>
    obtain ⟨a, b⟩ := p
    by_cases ha : a = k
    · subst ha
      simp [setKey, List.lookup, beq_false_of_ne h]
    · rw [show setKey ((a, b) :: rest) k v = (a, b) :: setKey rest k v from
        by simp [setKey, ha]]
      by_cases hk2 : k2 = a
      · simp [List.lookup, hk2]
      · simp only [List.lookup, beq_false_of_ne hk2]
        exact ih

theorem isObj_elim (s : JVal) (h : s.isObj = true) : ∃ kvs, s = jobj kvs := by
  cases s <;> simp_all [JVal.isObj]

theorem markOne_isObj (s r : JVal) (h : s.isObj = true) :
    (markOne s r).isObj = true := by
  obtain ⟨kvs, rfl⟩ := isObj_elim s h
  rfl

theorem markOne_look_status (s r : JVal) (h : s.isObj = true) :
    (markOne s r).look "status" =
      jstr (if (r.look "ok").truthy = true then "done" else "failed") := by
  obtain ⟨kvs, rfl⟩ := isObj_elim s h
  show ((setKey (setKey kvs "result" r) "status"
      (jstr (if (r.look "ok").truthy = true then "done" else "failed"))).lookup
      "status").getD jnull = _
  rw [setKey_lookup_self]
  rfl

theorem markOne_look_result (s r : JVal) (h : s.isObj = true) :
    (markOne s r).look "result" = r := by
  obtain ⟨kvs, rfl⟩ := isObj_elim s h
  show ((setKey (setKey kvs "result" r) "status"
      (jstr (if (r.look "ok").truthy = true then "done" else "failed"))).lookup
      "result").getD jnull = r
  rw [setKey_lookup_ne (setKey kvs "result" r) "status" "result" _ (by decide),
    setKey_lookup_self]
  rfl

theorem markOne_look_other (s r : JVal) (k : String) (h : s.isObj = true)
    (h1 : k ≠ "status") (h2 : k ≠ "result") :
    (markOne s r).look k = s.look k := by
  obtain ⟨kvs, rfl⟩ := isObj_elim s h
  show ((setKey (setKey kvs "result" r) "status"
      (jstr (if (r.look "ok").truthy = true then "done" else "failed"))).lookup
      k).getD jnull = (kvs.lookup k).getD jnull
  rw [setKey_lookup_ne _ _ _ _ h1, setKey_lookup_ne _ _ _ _ h2]

theorem markStep_length (steps : List JVal) (i : Nat) (r : JVal) :
    (markStep steps i r).length = steps.length := by
  simp [markStep]

theorem markStep_get (steps : List JVal) (i : Nat) (r : JVal) (j : Nat)
    (h2 : j < (markStep steps i r).length) (h : j < steps.length) :
    (markStep steps i r).get ⟨j, h2⟩ =
      if j = i then markOne (steps.get ⟨j, h⟩) r else steps.get ⟨j, h⟩ :=
  List.get_mapIdx steps (fun j s => if j = i then markOne s r else s) j h

theorem markStep_mem (steps : List JVal) (i : Nat) (r s : JVal)
    (hs : s ∈ markStep steps i r) :
    s ∈ steps ∨ ∃ t, t ∈ steps ∧ s = markOne t r := by
  obtain ⟨⟨j, hj⟩, rfl⟩ := List.mem_iff_get.mp hs
  have hj2 : j < steps.length := by
    have hl := markStep_length steps i r
    omega
  rw [markStep_get steps i r j hj hj2]
  by_cases hji : j = i
  · rw [if_pos hji]
    exact Or.inr ⟨steps.get ⟨j, hj2⟩, List.get_mem steps j hj2, rfl⟩
  · rw [if_neg hji]
    exact Or.inl (List.get_mem steps j hj2)

theorem findFallback_ok (n m : JVal) :
    ∀ (steps : List JVal) (i : Nat),
    (∀ s ∈ steps, s.isObj = true) →
    (∀ s ∈ steps, ¬(s.look "tool").truthy = true ∨ (s.look "tool").isObj = true) →
    ∃ o, findFallback n m steps i = Except.ok o := by
  intro steps
  induction steps with
  | nil => exact fun i _ _ => ⟨none, rfl⟩
  | cons s rest ih =>
    intro i hobj htool
    have ihr := ih (i + 1) (fun t ht => hobj t (List.mem_cons_of_mem _ ht))
      (fun t ht => htool t (List.mem_cons_of_mem _ ht))
    obtain ⟨kvs, rfl⟩ := isObj_elim s (hobj s (List.mem_cons_self _ _))
    simp only [findFallback, pyGet, ebind_ok]
    by_cases h1 : (kvs.lookup "status").getD jnull = jstr "pending"
    case neg => rw [if_neg h1]; exact ihr
    rw [if_pos h1]
    by_cases h2 : (kvs.lookup "type").getD jnull = jstr "tool"
    case neg => rw [if_neg h2]; exact ihr
    rw [if_pos h2]
    have htv : ∃ tkvs, (if ((kvs.lookup "tool").getD jnull).truthy = true
        then (kvs.lookup "tool").getD jnull else jobj []) = jobj tkvs := by
      by_cases htr : ((kvs.lookup "tool").getD jnull).truthy = true
      · rcases htool (jobj kvs) (List.mem_cons_self _ _) with hno | hyes
        · exact absurd htr hno
        · obtain ⟨tkvs, htk⟩ := isObj_elim _ hyes
          exact ⟨tkvs, by rw [if_pos htr]; exact htk⟩
      · exact ⟨[], by rw [if_neg htr]⟩
    obtain ⟨tkvs, htv⟩ := htv
    rw [htv]
    simp only [pyGet, ebind_ok]
    by_cases h3 : (tkvs.lookup "name").getD jnull = n ∧
        (tkvs.lookup "method").getD jnull = m
    · exact ⟨some i, by rw [if_pos h3]; rfl⟩
    · rw [if_neg h3]; exact ihr

theorem buildIdIndex_ok :
    ∀ (steps : List JVal) (i : Nat),
    (∀ s ∈ steps, s.isObj = true → (s.look "id").hashable = true) →
    ∃ idx, buildIdIndex steps i = Except.ok idx := by
  intro steps
  induction steps with
  | nil => exact fun i _ => ⟨[], rfl⟩
  | cons s rest ih =>
    intro i h
    obtain ⟨idx, hidx⟩ := ih (i + 1) (fun t ht => h t (List.mem_cons_of_mem _ ht))
    cases s with
    | jobj kvs =>
      have hh : ((kvs.lookup "id").getD jnull).hashable = true :=
        h (jobj kvs) (List.mem_cons_self _ _) rfl
      refine ⟨((kvs.lookup "id").getD jnull, i) :: idx, ?_⟩
      simp only [buildIdIndex]
      rw [if_neg (not_not_intro hh), hidx, ebind_ok]
      rfl
    | jnull => exact ⟨idx, hidx⟩
    | jbool b => exact ⟨idx, hidx⟩
    | jnum x => exact ⟨idx, hidx⟩
    | jstr t => exact ⟨idx, hidx⟩
    | jarr xs => exact ⟨idx, hidx⟩

theorem applyResults_spec (idx : List (JVal × Nat)) :
    ∀ (results steps : List JVal),
    (∀ s ∈ steps, s.isObj = true) →
    (∀ s ∈ steps, ¬(s.look "tool").truthy = true ∨ (s.look "tool").isObj = true) →
    ∃ steps2, applyResults idx steps results = Except.ok steps2 ∧
      steps2.length = steps.length ∧
      ∀ i (hi : i < steps2.length) (hi2 : i < steps.length),
        steps2.get ⟨i, hi⟩ = steps.get ⟨i, hi2⟩ ∨
        ∃ res ∈ results, (steps2.get ⟨i, hi⟩).look "result" = res ∧
          (steps2.get ⟨i, hi⟩).look "status" =
            jstr (if (res.look "ok").truthy = true then "done" else "failed") := by
  intro results
  induction results with
  | nil =>
    intro steps _ _
    exact ⟨steps, rfl, rfl, fun i hi hi2 => Or.inl rfl⟩
  | cons r rest ih =>
    intro steps hobj htool
    have hskip : ∃ steps2, applyResults idx steps rest = Except.ok steps2 ∧
        steps2.length = steps.length ∧
        ∀ i (hi : i < steps2.length) (hi2 : i < steps.length),
          steps2.get ⟨i, hi⟩ = steps.get ⟨i, hi2⟩ ∨
          ∃ res ∈ r :: rest, (steps2.get ⟨i, hi⟩).look "result" = res ∧
            (steps2.get ⟨i, hi⟩).look "status" =
              jstr (if (res.look "ok").truthy = true then "done" else "failed") := by
      obtain ⟨steps2, ha, hl, hv⟩ := ih steps hobj htool
      exact ⟨steps2, ha, hl, fun i hi hi2 => (hv i hi hi2).imp id
        (fun ⟨res, hm, h1, h2⟩ => ⟨res, List.mem_cons_of_mem _ hm, h1, h2⟩)⟩
    have hmark : ∀ j : Nat, ∃ steps2,
        applyResults idx (markStep steps j r) rest = Except.ok steps2 ∧
        steps2.length = steps.length ∧
        ∀ i (hi : i < steps2.length) (hi2 : i < steps.length),
          steps2.get ⟨i, hi⟩ = steps.get ⟨i, hi2⟩ ∨
          ∃ res ∈ r :: rest, (steps2.get ⟨i, hi⟩).look "result" = res ∧
            (steps2.get ⟨i, hi⟩).look "status" =
              jstr (if (res.look "ok").truthy = true then "done" else "failed") := by
      intro j
      have hobj2 : ∀ s ∈ markStep steps j r, s.isObj = true := by
        intro s hs
        rcases markStep_mem steps j r s hs with h | ⟨t, ht, rfl⟩
        · exact hobj s h
        · exact markOne_isObj t r (hobj t ht)
      have htool2 : ∀ s ∈ markStep steps j r,
          ¬(s.look "tool").truthy = true ∨ (s.look "tool").isObj = true := by
        intro s hs
        rcases markStep_mem steps j r s hs with h | ⟨t, ht, rfl⟩
        · exact htool s h
        · rw [markOne_look_other t r "tool" (hobj t ht) (by decide) (by decide)]
          exact htool t ht
      obtain ⟨steps2, ha, hl, hv⟩ := ih (markStep steps j r) hobj2 htool2
      refine ⟨steps2, ha, hl.trans (markStep_length steps j r), ?_⟩
      intro i hi hi2
      have hi3 : i < (markStep steps j r).length := by
        rw [markStep_length]
        exact hi2
      rcases hv i hi hi3 with heq | ⟨res, hm, h1, h2⟩
      · rw [markStep_get steps j r i hi3 hi2] at heq
        by_cases hij : i = j
        · rw [if_pos hij] at heq
          refine Or.inr ⟨r, List.mem_cons_self _ _, ?_, ?_⟩
          · rw [heq]
            exact markOne_look_result _ r (hobj _ (List.get_mem _ _ _))
          · rw [heq]
            exact markOne_look_status _ r (hobj _ (List.get_mem _ _ _))
        · rw [if_neg hij] at heq
          exact Or.inl heq
      · exact Or.inr ⟨res, List.mem_cons_of_mem _ hm, h1, h2⟩
    cases r with
    | jobj rkvs =>
      cases hvia : (if ((jobj rkvs).look "_step_id").isStr = true
          then idxFind idx ((jobj rkvs).look "_step_id") else none) with
      | some j =>
        obtain ⟨steps2, ha, hl, hv⟩ := hmark j
        refine ⟨steps2, ?_, hl, hv⟩
        simp only [applyResults, hvia, epure_bind]
        exact ha
      | none =>
        obtain ⟨o, ho⟩ := findFallback_ok ((jobj rkvs).look "name")
          ((jobj rkvs).look "method") steps 0 hobj htool
        cases o with
        | none =>
          obtain ⟨steps2, ha, hl, hv⟩ := hskip
          refine ⟨steps2, ?_, hl, hv⟩
          simp only [applyResults, hvia, ho, ebind_ok]
          exact ha
        | some j =>
          obtain ⟨steps2, ha, hl, hv⟩ := hmark j
          refine ⟨steps2, ?_, hl, hv⟩
          simp only [applyResults, hvia, ho, ebind_ok]
          exact ha
    | jnull => exact hskip
    | jbool b => exact hskip
    | jnum x => exact hskip
    | jstr t => exact hskip
    | jarr xs => exact hskip

/-- Envelope-level marking invariant of `apply_tool_results`: for every
structured plan (each step a dictionary with hashable id and
dictionary-or-falsy `tool`) and every list of router results, the call
succeeds with `ok=true` and, step by step, either leaves the step
untouched or attaches to it some result `res` from the list, in which
case the step's status becomes `done` exactly when `bool(res.get("ok"))`
holds on that attached result and becomes `failed` whenever it does not.
The `ok` consulted here is the router envelope's, not the provider's —
see `claim_C1_rejection_marked_done` for the consequence. -/
theorem applyToolResults_done_iff_envelope (kvs : List (String × JVal))
    (steps results : List JVal)
    (hsteps : kvs.lookup "steps" = some (jarr steps))
    (hobj : ∀ s ∈ steps, s.isObj = true)
    (hidh : ∀ s ∈ steps, (s.look "id").hashable = true)
    (htool : ∀ s ∈ steps, ¬(s.look "tool").truthy = true ∨
      (s.look "tool").isObj = true) :
    ∃ steps2,
      applyToolResults (jobj kvs) (jarr results) =
        jobj [("ok", jbool true),
          ("plan", jobj (setKey kvs "steps" (jarr steps2))),
          ("error", jnull), ("details", jnull)] ∧
      steps2.length = steps.length ∧
      ∀ i (hi : i < steps2.length) (hi2 : i < steps.length),
        steps2.get ⟨i, hi⟩ = steps.get ⟨i, hi2⟩ ∨
        ∃ res ∈ results, (steps2.get ⟨i, hi⟩).look "result" = res ∧
          ((steps2.get ⟨i, hi⟩).look "status" = jstr "done" ↔
            (res.look "ok").truthy = true) ∧
          (¬(res.look "ok").truthy = true →
            (steps2.get ⟨i, hi⟩).look "status" = jstr "failed") := by
  obtain ⟨idx, hidx⟩ := buildIdIndex_ok steps 0 (fun s hs _ => hidh s hs)
  obtain ⟨steps2, happ, hlen, hinv⟩ := applyResults_spec idx results steps hobj htool
  refine ⟨steps2, ?_, hlen, ?_⟩
  · simp only [applyToolResults, hsteps, Option.isNone_some, Bool.false_eq_true,
      if_false, JVal.lookD, Option.getD_some, hidx, ebind_ok, happ]
    rfl
  · intro i hi hi2
    rcases hinv i hi hi2 with h | ⟨res, hm, h1, h2⟩
    · exact Or.inl h
    · refine Or.inr ⟨res, hm, h1, ?_, ?_⟩
      · by_cases hok : (res.look "ok").truthy = true
        · rw [h2, if_pos hok]
          exact ⟨fun _ => hok, fun _ => rfl⟩
        · rw [h2, if_neg hok]
          exact ⟨fun hd => absurd hd (by decide), fun hk => absurd hk hok⟩
      · intro hok
        rw [h2, if_neg hok]

/-- The marking invariant at a concrete input: a router-level `ok=false`
result addressed by `_step_id` is attached and the plan still has one
step (the router itself only emits `ok=false` for INVALID_TOOL_CALL,
UNKNOWN_TOOL and TOOL_EXCEPTION). -/
theorem applyToolResults_done_iff_envelope_example :
    ∃ steps2 : List JVal,
      applyToolResults
        (jobj [("steps", jarr [jobj [("id", jstr "s1"),
          ("type", jstr "tool"), ("status", jstr "pending"),
          ("tool", jobj [("name", jstr "browser"),
            ("method", jstr "http_get"), ("args", jobj [])])]])])
        (jarr [jobj [("ok", jbool false),
          ("error", jstr "LAN_HOST_NOT_ALLOWLISTED"),
          ("_step_id", jstr "s1")]]) =
        jobj [("ok", jbool true),
          ("plan", jobj (setKey [("steps", jarr [jobj [("id", jstr "s1"),
            ("type", jstr "tool"), ("status", jstr "pending"),
            ("tool", jobj [("name", jstr "browser"),
              ("method", jstr "http_get"), ("args", jobj [])])]])]
            "steps" (jarr steps2))),
          ("error", jnull), ("details", jnull)] ∧
      steps2.length = 1 := by
  obtain ⟨steps2, h1, h2, h3⟩ := applyToolResults_done_iff_envelope
    [("steps", jarr [jobj [("id", jstr "s1"),
      ("type", jstr "tool"), ("status", jstr "pending"),
      ("tool", jobj [("name", jstr "browser"),
        ("method", jstr "http_get"), ("args", jobj [])])]])]
    [jobj [("id", jstr "s1"),
      ("type", jstr "tool"), ("status", jstr "pending"),
      ("tool", jobj [("name", jstr "browser"),
        ("method", jstr "http_get"), ("args", jobj [])])]]
    [jobj [("ok", jbool false),
      ("error", jstr "LAN_HOST_NOT_ALLOWLISTED"),
      ("_step_id", jstr "s1")]]
    rfl (by decide) (by decide) (by decide)
  exact ⟨steps2, h1, h2⟩

/-- The browser effects for the C1 bug trace: DNS resolves every hostname
to the RFC1918 address `10.0.0.1`; the fetch, decode and JSON oracles are
never consulted because validation rejects the URL first. -/
def c1benv : BrowserEnv where
  resolver := fun _ => Except.ok ["10.0.0.1"]
  fetch := fun _ _ => Except.error ⟨"RuntimeError", "network disabled"⟩
  decode := fun _ _ => Except.error ⟨"RuntimeError", "decoder disabled"⟩
  jsonLoads := fun _ => Except.error ⟨"RuntimeError", "json disabled"⟩

/-- The registered providers for the C1 bug trace: `browser` runs
`BrowserTools.run` with no allowlist configured — and, as in the source,
never raises; no other provider is reached by the trace. -/
def c1providers : ToolProviders where
  run := fun n m args =>
    if n = "browser" then Except.ok (browserRun [] c1benv (jstr m) args)
    else Except.error ⟨"RuntimeError", "no provider"⟩

/-- The dispatched call of the C1 bug trace. -/
def c1call : JVal :=
  jobj [("name", jstr "browser"), ("method", jstr "http_get"),
    ("args", jobj [("url", jstr "http://internal.test/")])]

/-- The plan of the C1 bug trace: one pending `browser.http_get` tool
step. -/
def c1plan : JVal :=
  jobj [("steps", jarr [jobj [("id", jstr "s1"), ("type", jstr "tool"),
    ("status", jstr "pending"),
    ("tool", jobj [("name", jstr "browser"), ("method", jstr "http_get"),
      ("args", jobj [("url", jstr "http://internal.test/")])])]])]

/-- C1: the structured-rejection half of the claim is false in the code.
The fetcher rejects `http://internal.test/` (it resolves to the blocked
`10.0.0.1` and no allowlist is configured) with the structured dictionary
`ok=false, error=LAN_HOST_NOT_ALLOWLISTED` and does not raise;
`ToolRouter.execute` wraps every non-raising provider return in an
`ok=true` envelope; `apply_tool_results` consults only the envelope's
`ok` and marks the owning step `done` — not `failed` as the claim and the
spec's S3 scenario require. -/
theorem claim_C1_rejection_marked_done :
    ∃ env newStep,
      routerExecute c1providers [c1call] = Except.ok [env] ∧
      env.look "ok" = jbool true ∧
      (env.look "result").look "ok" = jbool false ∧
      (env.look "result").look "error" = jstr "LAN_HOST_NOT_ALLOWLISTED" ∧
      (applyToolResults c1plan (jarr [env])).look "ok" = jbool true ∧
      ((applyToolResults c1plan (jarr [env])).look "plan").look "steps" =
        jarr [newStep] ∧
      newStep.look "status" = jstr "done" ∧
      newStep.look "result" = env :=
  ⟨_, _, rfl, rfl, rfl, rfl, rfl, rfl, rfl, rfl⟩

/-! ### C8: the http_get guardrails -/

/-- C8 counterexample: the IPv6 link-local filter tests only the literal
lowercase text prefix `fe80:`, not membership in `fe80::/10`.  The address
`fe81::1` lies inside `fe80::/10` (its first hextet `0xfe81` is in
`[0xfe80, 0xfec0)`), yet `_is_blocked_ipv6` passes it and `_validate_url`
admits a URL resolving only to it with an empty allowlist, where the
claimed blocklist requires rejection. -/
theorem claim_C8_counterexample :
    (0xfe80 ≤ 0xfe81 ∧ 0xfe81 < 0xfec0) ∧
    isBlockedIpv6 "fe81::1" = false ∧
    isBlockedIp "fe81::1" = Except.ok false ∧
    validateUrl [] (fun _ => Except.ok ["fe81::1"]) (jstr "http://h.test/") =
      Except.ok (true, "http://h.test/",
        jobj [("host", jstr "h.test"), ("ips", jarr [jstr "fe81::1"]),
          ("allowlist", jarr [])]) :=
  ⟨by decide, rfl, rfl, rfl⟩

theorem checkIps_admit (A : List String) (host u : String) :
    ∀ (ips all : List String) (v : String) (d : JVal),
    checkIps A host u all ips = Except.ok (true, v, d) →
    v = u ∧ ∀ ip ∈ ips, isBlockedIp ip = Except.ok false ∨
      hostAllowlisted A host = true := by
  intro ips
  induction ips with
  | nil =>
    intro all v d h
    refine ⟨?_, fun ip hip => absurd hip (List.not_mem_nil ip)⟩
    have h2 := h
    simp only [checkIps, Except.ok.injEq, Prod.mk.injEq] at h2
    exact h2.2.1.symm
  | cons ip rest ih =>
    intro all v d h
    simp only [checkIps] at h
    cases hb : isBlockedIp ip with
    | error e => rw [hb, ebind_err] at h; exact absurd h (by simp)
    | ok b =>
      rw [hb, ebind_ok] at h
      by_cases hc : b = true ∧ ¬hostAllowlisted A host = true
      · rw [if_pos hc] at h
        exact absurd h (by simp [pure, Except.pure])
      · rw [if_neg hc] at h
        obtain ⟨hv, hrest⟩ := ih all v d h
        refine ⟨hv, fun ip2 hip2 => ?_⟩
        rcases List.mem_cons.mp hip2 with rfl | hip2
        · by_cases hall : hostAllowlisted A host = true
          · exact Or.inr hall
          · cases b with
            | false => exact Or.inl hb
            | true => exact absurd ⟨rfl, hall⟩ hc
        · exact hrest ip2 hip2

theorem checkIps_reject (A : List String) (host u : String)
    (hallow : ¬hostAllowlisted A host = true) :
    ∀ (ips all : List String),
    (∀ ip ∈ ips, ∃ b, isBlockedIp ip = Except.ok b) →
    (∃ ip ∈ ips, isBlockedIp ip = Except.ok true) →
    ∃ d, checkIps A host u all ips =
      Except.ok (false, "LAN_HOST_NOT_ALLOWLISTED", d) := by
  intro ips
  induction ips with
  | nil =>
    intro all _ hex
    obtain ⟨ip, hip, _⟩ := hex
    exact absurd hip (List.not_mem_nil ip)
  | cons ip rest ih =>
    intro all hparse hex
    obtain ⟨b, hb⟩ := hparse ip (List.mem_cons_self _ _)
    simp only [checkIps]
    rw [hb, ebind_ok]
    cases b with
    | true =>
      rw [if_pos ⟨rfl, hallow⟩]
      exact ⟨_, rfl⟩
    | false =>
      rw [if_neg (fun hc => by exact absurd hc.1 (by simp))]
      refine ih all (fun ip2 hip2 => hparse ip2 (List.mem_cons_of_mem _ hip2)) ?_
      obtain ⟨ip2, hip2, hbl⟩ := hex
      rcases List.mem_cons.mp hip2 with rfl | hip2
      · rw [hb] at hbl
        exact absurd hbl (by simp)
      · exact ⟨ip2, hip2, hbl⟩

theorem validateUrl_scheme (A : List String)
    (resolver : String → Except PyExc (List String)) (u : String)
    (h1 : pyStrip u ≠ "")
    (h2 : (parseUrl (pyStrip u)).scheme ≠ "http")
    (h3 : (parseUrl (pyStrip u)).scheme ≠ "https") :
    validateUrl A resolver (jstr u) =
      Except.ok (false, "INVALID_SCHEME",
        jobj [("scheme", jstr (parseUrl (pyStrip u)).scheme)]) := by
  simp only [validateUrl]
  rw [if_neg (not_not_intro ⟨rfl, h1⟩)]
  rw [if_pos ⟨h2, h3⟩]
  rfl

theorem pyLower_append (a b : String) : pyLower (a ++ b) = pyLower a ++ pyLower b :=
  congrArg String.mk (List.map_append Char.toLower a.data b.data)

theorem pyEndsWith_append (a b : String) : pyEndsWith (a ++ b) b = true := by
  have hd : (a ++ b).data = a.data ++ b.data := rfl
  simp only [pyEndsWith, hd, List.length_append]
  rw [show a.data.length + b.data.length - b.data.length = a.data.length from by
    omega]
  rw [List.drop_left]
  simp

theorem ne_of_data_length_ne (a b : String) (h : a.data.length ≠ b.data.length) :
    a ≠ b := fun he => h (congrArg (fun s => s.data.length) he)

theorem hostAllowlisted_wildcard (sub d : String) (hsub : sub ≠ "")
    (hls : pyLower sub = sub) (hld : pyLower d = d) :
    hostAllowlisted ["*." ++ d] (sub ++ ("." ++ d)) = true ∧
    hostAllowlisted ["*." ++ d] d = false := by
  have hlow : pyLower (sub ++ ("." ++ d)) = sub ++ ("." ++ d) := by
    rw [pyLower_append, pyLower_append, hls, hld]
    rfl
  have hsublen : 0 < sub.data.length := by
    cases hc : sub.data with
    | nil => exact absurd (congrArg String.mk hc) hsub
    | cons c cs => simp
  constructor
  · simp only [hostAllowlisted, List.any_cons, List.any_nil, Bool.or_false,
      hlow]
    refine decide_eq_true (Or.inr ⟨?_, ?_, ?_⟩)
    · rfl
    · exact pyEndsWith_append sub ("." ++ d)
    · refine ne_of_data_length_ne _ _ ?_
      have h1 : (sub ++ ("." ++ d)).data = sub.data ++ ('.' :: d.data) := rfl
      have h2 : (pyDrop ("*." ++ d) 2).data = d.data := rfl
      rw [h1, h2, List.length_append]
      simp only [List.length_cons]
      omega
  · simp only [hostAllowlisted, List.any_cons, List.any_nil, Bool.or_false,
      hld]
    refine decide_eq_false ?_
    rintro (he | ⟨_, hew, _⟩)
    · exact ne_of_data_length_ne ("*." ++ d) d
        (by
          have h1 : ("*." ++ d).data = '*' :: '.' :: d.data := rfl
          rw [h1]
          simp only [List.length_cons]
          omega) he
    · have hw : pyDrop ("*." ++ d) 1 = "." ++ d := rfl
      rw [hw] at hew
      simp only [pyEndsWith, decide_eq_true_eq] at hew
      have h1 : ("." ++ d).data = '.' :: d.data := rfl
      rw [h1] at hew
      simp only [List.length_cons] at hew
      omega

theorem isBlockedIpv6_covers (s : String) :
    (pyStartsWith (pyLower s) "fe80:" = true → isBlockedIpv6 s = true) ∧
    (pyStartsWith (pyLower s) "fc" = true → isBlockedIpv6 s = true) ∧
    (pyStartsWith (pyLower s) "fd" = true → isBlockedIpv6 s = true) ∧
    (pyLower s = "::1" → isBlockedIpv6 s = true) := by
  refine ⟨fun h => ?_, fun h => ?_, fun h => ?_, fun h => ?_⟩
  · exact decide_eq_true (Or.inr (Or.inl h))
  · exact decide_eq_true (Or.inr (Or.inr (Or.inl h)))
  · exact decide_eq_true (Or.inr (Or.inr (Or.inr h)))
  · exact decide_eq_true (Or.inl h)

theorem fetchBody_obj (env : BrowserEnv) (vurl : String) (timeout : Int)
    (mb mc : Nat) (out1 : List (String × JVal)) (outv : JVal)
    (heq : (do
      let resp ← env.fetch vurl timeout
      let ct := ((resp.headers.lookup "Content-Type").getD "")
      let raw := resp.body.take (mb + 1)
      let (raw2, bodyTrunc) := truncateBytes raw mb
      let charset := (findCharset ct).getD "utf-8"
      let text0 ← env.decode raw2 charset
      let (text, textTrunc) :=
        if text0.data.length > mc then
          (pyTake text0 mc, true)
        else (text0, false)
      let parsedJson :=
        if containsSub (pyLower ct) "application/json" then
          match env.jsonLoads text with
          | .ok v => v
          | .error _ => jnull
        else jnull
      let out2 := setKey out1 "ok" (jbool true)
      let out3 := setKey out2 "status" (jnum resp.status)
      let out4 := setKey out3 "headers"
        (jobj (resp.headers.map (fun kv => (kv.1, jstr kv.2))))
      let out5 := setKey out4 "content_type" (jstr ct)
      let out6 := setKey out5 "text" (jstr text)
      let out7 := setKey out6 "json" parsedJson
      let out8 := setKey out7 "body_truncated" (jbool bodyTrunc)
      let out9 := setKey out8 "text_truncated" (jbool textTrunc)
      pure (jobj out9) : Except PyExc JVal) = Except.ok outv) :
    ∃ kvs, outv = jobj kvs := by
  cases hf : env.fetch vurl timeout with
  | error e =>
    simp only [hf, ebind_err] at heq
    exact absurd heq (by simp)
  | ok resp =>
    simp only [hf, ebind_ok] at heq
    rcases htr : truncateBytes (resp.body.take (mb + 1)) mb with ⟨raw2, btr⟩
    simp only [htr] at heq
    cases hdec : env.decode raw2
        ((findCharset ((resp.headers.lookup "Content-Type").getD "")).getD
          "utf-8") with
    | error e =>
      simp only [hdec, ebind_err] at heq
      exact absurd heq (by simp)
    | ok text0 =>
      simp only [hdec, ebind_ok] at heq
      split at heq
      · exact ⟨_, (Except.ok.inj heq).symm⟩
      · exact ⟨_, (Except.ok.inj heq).symm⟩

theorem browserRun_obj (A : List String) (env : BrowserEnv)
    (method args : JVal) : ∃ kvs, browserRun A env method args = jobj kvs := by
  unfold browserRun
  split
  · exact ⟨_, rfl⟩
  split
  · exact ⟨_, rfl⟩
  split
  · exact ⟨_, rfl⟩
  dsimp only
  split
  · exact ⟨_, rfl⟩
  split
  · exact ⟨_, rfl⟩
  split
  · exact ⟨_, rfl⟩
  split
  · exact ⟨_, rfl⟩
  split
  · exact ⟨_, rfl⟩
  split
  · exact ⟨_, rfl⟩
  split
  · exact ⟨_, rfl⟩
  split
  · exact ⟨_, rfl⟩
  split
  · next outv heq => exact fetchBody_obj _ _ _ _ _ _ _ heq
  · exact ⟨_, rfl⟩

/-- C8 (amended): `_validate_url` admits only http/https schemes and, on
admission, has checked every resolved address: each one is unblocked or
the hostname matched the allowlist; a blocked address with no allowlist
match rejects with `LAN_HOST_NOT_ALLOWLISTED`.  The IPv6 leg of the
blocklist is textual: it covers `::1` and the lowercase prefixes `fe80:`,
`fc`, `fd` — so `fc00::/7` and the text form `fe80:...` are blocked, but
the rest of `fe80::/10` (for example `fe81::1`) is not.  A `*.domain`
allowlist entry matches a proper subdomain and not the bare domain, and
`http_get` always returns a structured dictionary. -/
theorem claim_C8_amended_guardrails :
    (∀ (A : List String) (resolver : String → Except PyExc (List String))
      (u : String), pyStrip u ≠ "" →
      (parseUrl (pyStrip u)).scheme ≠ "http" →
      (parseUrl (pyStrip u)).scheme ≠ "https" →
      validateUrl A resolver (jstr u) =
        Except.ok (false, "INVALID_SCHEME",
          jobj [("scheme", jstr (parseUrl (pyStrip u)).scheme)])) ∧
    (∀ (A : List String) (host u : String) (ips all : List String)
      (v : String) (d : JVal),
      checkIps A host u all ips = Except.ok (true, v, d) →
      v = u ∧ ∀ ip ∈ ips, isBlockedIp ip = Except.ok false ∨
        hostAllowlisted A host = true) ∧
    (∀ (A : List String) (host u : String) (ips all : List String),
      ¬hostAllowlisted A host = true →
      (∀ ip ∈ ips, ∃ b, isBlockedIp ip = Except.ok b) →
      (∃ ip ∈ ips, isBlockedIp ip = Except.ok true) →
      ∃ d, checkIps A host u all ips =
        Except.ok (false, "LAN_HOST_NOT_ALLOWLISTED", d)) ∧
    (∀ s : String,
      (pyStartsWith (pyLower s) "fe80:" = true → isBlockedIpv6 s = true) ∧
      (pyStartsWith (pyLower s) "fc" = true → isBlockedIpv6 s = true) ∧
      (pyStartsWith (pyLower s) "fd" = true → isBlockedIpv6 s = true) ∧
      (pyLower s = "::1" → isBlockedIpv6 s = true)) ∧
    isBlockedIpv6 "fe81::1" = false ∧
    (∀ sub d : String, sub ≠ "" → pyLower sub = sub → pyLower d = d →
      hostAllowlisted ["*." ++ d] (sub ++ ("." ++ d)) = true ∧
      hostAllowlisted ["*." ++ d] d = false) ∧
    (∀ (A : List String) (env : BrowserEnv) (method args : JVal),
      ∃ kvs, browserRun A env method args = jobj kvs) :=
  ⟨validateUrl_scheme,
   checkIps_admit,
   fun A host u ips all hallow hparse hex =>
     checkIps_reject A host u hallow ips all hparse hex,
   isBlockedIpv6_covers,
   rfl,
   hostAllowlisted_wildcard,
   browserRun_obj⟩

/-- C8 witness: the scheme gate at a concrete input — an `ftp://` URL is
rejected as `INVALID_SCHEME` before any resolution. -/
theorem claim_C8_amended_witness :
    validateUrl [] (fun _ => Except.ok ["93.184.216.34"])
      (jstr "ftp://example.com/") =
      Except.ok (false, "INVALID_SCHEME", jobj [("scheme", jstr "ftp")]) := by
  have h := claim_C8_amended_guardrails
  exact h.1 [] (fun _ => Except.ok ["93.184.216.34"]) "ftp://example.com/"
    (by decide) (by decide) (by decide)

end AICore
